import Mathlib

/-!
# The nugget game server (`server.c`)

A shallow embedding of the message dispatcher of `server.c` and of the
handlers it calls, together with the properties of the specification that
can be settled on it.

* The game state `gameInfo_t` is a record that is passed in and returned.
* Every `message_send(addr, text)` of `server.c` is recorded, in program
  order, as a pair `(addr, text)` in the list the function returns.
* The functions of `player.h` and `map.h` that `server.c` calls are not part
  of the sources; they are the fields of `Collab` and every general theorem
  quantifies over them. Concrete sessions are run with `refCollab`, a model
  of these functions that follows the specification.
* Dereferencing a pointer that is `NULL` (or reading `players[j]` past the
  players that exist) is the result `Fault.nullDeref`; the `while` loop of a
  slide is run with a step budget and `Fault.outOfFuel` is the result when
  the budget is used up. A `sprintf` or `strcat` of `sendSummary` that writes
  past the end of its `malloc`ed buffer is the result `Fault.bufferOverflow`.
* C `int` values are modelled by `Int` (coordinates, nugget counts) and by
  `Nat` (`numPlayers`, which starts at `0` and is only ever incremented).
* Where a property speaks of the order of calls rather than of the messages
  sent (a broadcast after each step of a slide), the slide loop is run a
  second time with its calls recorded (`slideEvents`), and the recorded run
  is proved to agree with the plain one (`slideLoop_eq_events`).
* Memory safety is followed by explicit bookkeeping: `readPositions` lists
  the positions of the message that are read, `tempSize` and `summarySize`
  are the sizes that `sendSummary` passes to `malloc`, `lineBytes` and
  `summaryBytes` the bytes written there.
* `fraction::simp` of `fractions.cpp` is embedded with the 32-bit `int` of
  the program: a result that leaves the range wraps round (`wrapInt`), and
  the loop is run with a step budget, `none` being the result when it has
  not ended within the budget.
-/

namespace Nugget

/-! ## Data model -/

/-- Transport address of a client (`addr_t`); `message_eqAddr` is equality. -/
abbrev Addr := Nat

/-- One `message_send(addr, text)` call. -/
abbrev Send := Addr × String

/-- Maximum number of players (`#define MaxPlayers 26`). -/
def MaxPlayers : Nat := 26

/-- Amount of gold in the game (`#define GoldTotal 250`). -/
def GoldTotal : Int := 250

/-- Minimum number of gold piles (`#define GoldMinNumPiles 10`). -/
def GoldMinNumPiles : Nat := 10

/-- Maximum number of gold piles (`#define GoldMaxNumPiles 30`). -/
def GoldMaxNumPiles : Nat := 30

/-- The fields of `map_t` that `server.c` uses: the grid text (a pointer that
may be `NULL`) and the row and column counts. -/
structure MapT where
  grids : Option String
  nR : Int
  nC : Int
deriving DecidableEq, Repr

/-- The fields of `player_t` that `server.c` uses; `grids` is the text of the
player's own map, `map->grids`. -/
structure Player where
  L : Char
  realname : String
  x : Int
  y : Int
  numNugs : Int
  connected : Bool
  clientAddr : Addr
  grids : String
deriving DecidableEq, Repr

/-- The spectator slot: the fields `connected` and `clientAddr` of the
`player_t` that `main` allocates for the spectator. -/
structure Spectator where
  connected : Bool
  clientAddr : Addr
deriving DecidableEq, Repr

/-- The fields of `goldBag_t`: the nuggets in the bag and its cell. -/
structure GoldBag where
  numNugs : Int
  x : Int
  y : Int
deriving DecidableEq, Repr

/-- The game state `gameInfo_t`. `players` holds the players that exist, in
array order (the entries of the C array after them are `NULL`). -/
structure GameInfo where
  players : List Player
  numPlayers : Nat
  mapRaw : MapT
  map : MapT
  spectator : Spectator
  goldBags : List GoldBag
  GoldNumPiles : Nat
  totalGold : Int
  x : Int
  y : Int
  ID : Char
deriving DecidableEq, Repr

/-- Ways in which running the code fails to produce a result. -/
inductive Fault where
  | nullDeref
  | outOfFuel
  | bufferOverflow
deriving DecidableEq, Repr

/-- Result of running a piece of `server.c`: a value, or a fault. -/
inductive Outcome (α : Type) where
  | ok : α → Outcome α
  | fail : Fault → Outcome α
deriving DecidableEq, Repr

/-- Sequencing of two steps; a fault in the first step is the result. -/
def Outcome.andThen {α β : Type} (r : Outcome α) (k : α → Outcome β) : Outcome β :=
  match r with
  | .ok a => k a
  | .fail e => .fail e

instance : Monad Outcome where
  pure := Outcome.ok
  bind := Outcome.andThen

/-- Use of a pointer that must not be `NULL`. -/
def deref {α : Type} (p : Option α) : Outcome α :=
  match p with
  | some a => .ok a
  | none => .fail .nullDeref

/-- The functions of `player.h` and `map.h` called by `server.c`. Each takes
the part of the state it is handed in C and returns the part it may have
changed together with its return value. -/
structure Collab where
  /-- Pointer to the player with the given address, or `NULL`. -/
  findPlayer : GameInfo → Addr → Option Player
  /-- Removes the player with the given address from the board. -/
  playerQuit : GameInfo → Addr → GameInfo
  /-- Initialises a player structure and adds it to the array;
  `NULL` when the player is not added. -/
  playerConnect : GameInfo → String → Addr → GameInfo × Option Player
  /-- Puts the player with the given address on the board. -/
  randomizeOnePlayerLoc : GameInfo → Addr → GameInfo
  /-- Tries to move player `ID` to cell `(x, y)`; returns the move result. -/
  movePlayer : GameInfo → GameInfo × Int
  /-- Pointer to the gold bag at a cell, searching the given number of bags. -/
  findGoldBag : Nat → Int → Int → List GoldBag → Option GoldBag
  /-- Recomputes the players' maps: `updateVisibility(map, players, n, mapRaw)`. -/
  updateVisibility : MapT → List Player → Nat → MapT → MapT × List Player × MapT

/-! ## Text helpers -/

/-- The character `message[i]` of a C string: the terminating NUL is read at
the end of the text (and, in this model, at every later index). -/
def cAt (message : String) (i : Nat) : Char :=
  message.toList.getD i (Char.ofNat 0)

/-- Text written by `sprintf(gridMessage, "GRID %d %d", nR, nC + 1)`. -/
def gridText (m : MapT) : String :=
  "GRID " ++ toString m.nR ++ " " ++ toString (m.nC + 1)

/-- Text written by `sprintf(goldMessage, "GOLD %d %d %d", n, p, r)`. -/
def goldText (n p r : Int) : String :=
  "GOLD " ++ toString n ++ " " ++ toString p ++ " " ++ toString r

/-- Text written by `sprintf(mapMessage, "DISPLAY\n%s", grids)`. -/
def displayText (grids : String) : String :=
  "DISPLAY\n" ++ grids

/-- The players `players[0]`, ..., `players[n-1]`, each of which the loops of
`server.c` dereference. -/
def firstPlayers (g : GameInfo) (n : Nat) : Outcome (List Player) :=
  if n ≤ g.players.length then .ok (g.players.take n) else .fail .nullDeref

/-! ## Broadcasts -/

/-- Embedding of `sendMap`: the visible map to every connected player, then
the whole map to the spectator. -/
def sendMap (map : MapT) (g : GameInfo) : Outcome (List Send) :=
  match map.grids with
  | none => .ok []
  | some _ => do
    let ps ← firstPlayers g g.numPlayers
    let toPlayers := (ps.filter (fun p => p.connected)).map
      (fun p => (p.clientAddr, displayText p.grids))
    if g.spectator.connected then do
      let whole ← deref g.map.grids
      pure (toPlayers ++ [(g.spectator.clientAddr, displayText whole)])
    else
      pure toPlayers

/-- The message of `sendGoldInfo` for one roster entry, if any. -/
def goldLine (clientAddr : Addr) (n p r : Int) (pl : Player) : Option Send :=
  if pl.clientAddr = clientAddr then some (clientAddr, goldText n p r)
  else if pl.connected then some (pl.clientAddr, goldText 0 pl.numNugs r)
  else none

/-- Embedding of `sendGoldInfo`. -/
def sendGoldInfo (clientAddr : Addr) (gb : Option GoldBag) (g : GameInfo) (p : Int) :
    Outcome (List Send) := do
  let n : Int := match gb with
    | some b => b.numNugs
    | none => 0
  let r := g.totalGold
  let ps ← firstPlayers g g.numPlayers
  let toPlayers := ps.filterMap (goldLine clientAddr n p r)
  if g.spectator.connected then
    pure (toPlayers ++ [(g.spectator.clientAddr, goldText 0 0 r)])
  else
    pure toPlayers

/-! ## End-of-game summary -/

/-- The body of the inner ranking loop of `sendSummary` at index `j`:
`players[j]` and `players[j+1]` are swapped when the left purse is smaller.
Both entries exist when the loop runs: `sendSummary` below faults before the
loops if one of `players[0]`, ..., `players[numPlayers-1]` is missing. -/
def swapStep (players : List Player) (j : Nat) : List Player :=
  match players[j]? with
  | none => players
  | some a =>
    match players[j + 1]? with
    | none => players
    | some b =>
        if a.numNugs < b.numNugs then (players.set j b).set (j + 1) a else players

/-- The inner loop `for (int j=0; j<numPlayers-1; j++)` of `sendSummary`. -/
def innerLoop (numPlayers : Nat) (players : List Player) : List Player :=
  (List.range (numPlayers - 1)).foldl swapStep players

/-- The outer loop `for (int i=0; i<numPlayers; i++)` of `sendSummary`. -/
def rankLoops (numPlayers : Nat) (players : List Player) : List Player :=
  (List.range numPlayers).foldl (fun ps _ => innerLoop numPlayers ps) players

/-- One run of the inner loop, written by recursion on the list (used in the
proofs): `a` is the current `players[j]` and the list holds the players
after it. -/
def bubbleFrom (a : Player) : List Player → List Player
  | [] => [a]
  | b :: t => if a.numNugs < b.numNugs then b :: bubbleFrom a t else a :: bubbleFrom b t

/-- One run of the inner loop over a whole list (used in the proofs). -/
def bubblePass : List Player → List Player
  | [] => []
  | a :: t => bubbleFrom a t

/-- The given number of runs of the inner loop (used in the proofs). -/
def rankPlayers : Nat → List Player → List Player
  | 0, ps => ps
  | n + 1, ps => rankPlayers n (bubblePass ps)

/-- Text written by `sprintf(temp, "%d. %c %s %d\n", i+1, L, realname, numNugs)`. -/
def summaryLine (i : Nat) (p : Player) : String :=
  toString (i + 1) ++ ". " ++ String.singleton p.L ++ " " ++ p.realname ++ " "
    ++ toString p.numNugs ++ "\n"

/-- The lines of the summary for the players from rank `i + 1` on. -/
def summaryLines : Nat → List Player → String
  | _, [] => ""
  | i, p :: t => summaryLine i p ++ summaryLines (i + 1) t

/-- The summary message that `sendSummary` builds when every write stays
within its buffer. -/
def summaryText (ranked : List Player) : String :=
  "GAMEOVER\n" ++ summaryLines 0 ranked

/-- The number of bytes of a C string before its terminator (`strlen`). -/
def strlen (s : String) : Nat :=
  s.utf8ByteSize

/-- The loop `while (num/10 > 0) { dig++; num = num/10; }` of `numDigits`,
run at most `fuel` times; `/` is the division of C, which truncates. -/
def numDigitsLoop : Nat → Nat → Int → Nat
  | 0, dig, _ => dig
  | fuel + 1, dig, num =>
      if num.tdiv 10 > 0 then numDigitsLoop fuel (dig + 1) (num.tdiv 10) else dig

/-- Embedding of `numDigits`. The loop divides a positive `num` by ten each
time round, so `num` rounds are enough for it to end. -/
def numDigits (num : Int) : Nat :=
  numDigitsLoop num.toNat 1 num

/-- The size of the buffer `temp` allocated for the line of one player:
`malloc(strlen(realname) + numDigits(numNugs) + 8)`. -/
def tempSize (p : Player) : Nat :=
  strlen p.realname + numDigits p.numNugs + 8

/-- The bytes `sprintf(temp, "%d. %c %s %d\n", i+1, ...)` writes into `temp`:
the line and its terminator. -/
def lineBytes (i : Nat) (p : Player) : Nat :=
  strlen (summaryLine i p) + 1

/-- The value of `length` after the loop that sums `strlen(realname)` and
`numDigits(numNugs)` over the players. -/
def summaryLength : List Player → Nat
  | [] => 0
  | p :: t => strlen p.realname + numDigits p.numNugs + summaryLength t

/-- The size of the buffer allocated for the whole summary:
`malloc(10 + length + (8 * numPlayers))`. -/
def summarySize (ranked : List Player) : Nat :=
  10 + summaryLength ranked + 8 * ranked.length

/-- The bytes held by `summaryMessage` once every line is appended: the text
and its terminator. -/
def summaryBytes (ranked : List Player) : Nat :=
  strlen (summaryText ranked) + 1

/-- The positions `i` of the ranking whose line does not fit its buffer. -/
def overflowingLines (ranked : List Player) : List Nat :=
  (ranked.enum.filter (fun ip => decide (tempSize ip.2 < lineBytes ip.1 ip.2))).map
    (fun ip => ip.1)

/-- The loop of `sendSummary` that formats one line for each player and
appends it to the summary: `summaryMessage` is the text held by the buffer
of `size` bytes, `i` the index of the next player. Each time round,
`sprintf` writes `lineBytes` bytes into `temp`, a buffer of `tempSize`
bytes, and `strcat` appends the line and its terminator to the summary; a
write past the end of either buffer is a fault. -/
def formatLines (size : Nat) : Nat → String → List Player → Outcome String
  | _, summaryMessage, [] => .ok summaryMessage
  | i, summaryMessage, p :: rest =>
      if tempSize p < lineBytes i p then .fail .bufferOverflow
      else if size < strlen summaryMessage + strlen (summaryLine i p) + 1 then
        .fail .bufferOverflow
      else formatLines size (i + 1) (summaryMessage ++ summaryLine i p) rest

/-- Embedding of `sendSummary`: the first `numPlayers` players are ranked in
place, the summary of these players is formatted in a buffer of
`summarySize` bytes (the first `sprintf` writes `GAMEOVER`, a newline and the
terminator, the 10 bytes that the size starts with), and it is sent to those
of the players that are connected and to the spectator. -/
def sendSummary (g : GameInfo) (numPlayers : Nat) : Outcome (GameInfo × List Send) := do
  let _ ← firstPlayers g numPlayers
  let g1 := { g with players := rankLoops numPlayers g.players }
  let ranked := g1.players.take numPlayers
  let text ← formatLines (summarySize ranked) 0 "GAMEOVER\n" ranked
  let toPlayers := (ranked.filter (fun p => p.connected)).map (fun p => (p.clientAddr, text))
  if g1.spectator.connected then
    pure (g1, toPlayers ++ [(g1.spectator.clientAddr, text)])
  else
    pure (g1, toPlayers)

/-! ## Connecting -/

/-- Embedding of `connectSpectator`. -/
def connectSpectator (g : GameInfo) (clientAddr : Addr) : Outcome (GameInfo × List Send) := do
  let out0 : List Send :=
    if !g.spectator.connected then [] else [(g.spectator.clientAddr, "QUIT")]
  let g1 := { g with spectator := { connected := true, clientAddr := clientAddr } }
  let out1 : List Send := [(clientAddr, gridText g1.map)]
  let out2 ← sendMap g1.map g1
  let out3 ← sendGoldInfo clientAddr none g1 0
  pure (g1, out0 ++ out1 ++ out2 ++ out3)

/-- Embedding of `addNewPlayer`; the name is the text after `message + 5`. -/
def addNewPlayer (c : Collab) (g : GameInfo) (message : String) (clientAddr : Addr) :
    GameInfo × List Send × Bool :=
  let g1 := { g with numPlayers := g.numPlayers + 1 }
  let playerName := message.drop 5
  match c.playerConnect g1 playerName clientAddr with
  | (g2, none) => (g2, [], false)
  | (g2, some newplayer) =>
      (g2, [(clientAddr, "OK " ++ String.singleton newplayer.L),
            (clientAddr, gridText g2.map)], true)

/-- The call `updateVisibility(map, players, MaxPlayers, mapRaw)` on the state. -/
def applyVisibility (c : Collab) (g : GameInfo) : GameInfo :=
  match c.updateVisibility g.map g.players MaxPlayers g.mapRaw with
  | (m, ps, raw) => { g with map := m, players := ps, mapRaw := raw }

/-- Embedding of `connectNewPlayer`. -/
def connectNewPlayer (c : Collab) (g : GameInfo) (message : String) (clientAddr : Addr) :
    Outcome (GameInfo × List Send) :=
  match addNewPlayer c g message clientAddr with
  | (g1, out1, true) => do
      let g2 := c.randomizeOnePlayerLoc g1 clientAddr
      let g3 := applyVisibility c g2
      let out2 ← sendMap g3.map g3
      let out3 ← sendGoldInfo clientAddr none g3 0
      pure (g3, out1 ++ out2 ++ out3)
  | (g1, out1, false) =>
      pure (g1, out1 ++ [(clientAddr, "NO Max players reached\n")])

/-! ## Moves -/

/-- The condition of the first `if` of `newMove`: an upper-case direction. -/
def isSlideKey (C : Char) : Bool :=
  C == 'H' || C == 'J' || C == 'K' || C == 'L' || C == 'Y' || C == 'U' || C == 'B' || C == 'N'

/-- The `switch` of `newMove`: the change of `(x, y)` for a key, `none` for
the `default` case. -/
def keyVector (C : Char) : Option (Int × Int) :=
  if C = 'h' then some (-1, 0)
  else if C = 'j' then some (0, 1)
  else if C = 'k' then some (0, -1)
  else if C = 'l' then some (1, 0)
  else if C = 'y' then some (-1, -1)
  else if C = 'u' then some (1, -1)
  else if C = 'b' then some (-1, 1)
  else if C = 'n' then some (1, 1)
  else none

/-- The code that follows a move onto a gold bag, the same in `handleMessage`
and in the loop of `newMove`: look up the bag at `(x, y)`, subtract it from
the total, send the gold information. -/
def pickUp (c : Collab) (g : GameInfo) (clientAddr : Addr) : Outcome (GameInfo × List Send) := do
  let gb ← deref (c.findGoldBag GoldMaxNumPiles g.x g.y g.goldBags)
  let g1 := { g with totalGold := g.totalGold - gb.numNugs }
  let ptr ← deref (c.findPlayer g1 clientAddr)
  let out ← sendGoldInfo clientAddr (some gb) g1 ptr.numNugs
  pure (g1, out)

/-- Embedding of `newMove` for a key that is not an upper-case direction
(the part of the function after the first `if`). -/
def newMoveStep (c : Collab) (g : GameInfo) (clientAddr : Addr) (C : Char) :
    Outcome (GameInfo × List Send × Int) := do
  let ptr ← deref (c.findPlayer g clientAddr)
  match keyVector C with
  | none => pure (g, [(clientAddr, "NO Invalid key")], 0)
  | some (dx, dy) =>
      let g1 := { g with x := ptr.x + dx, y := ptr.y + dy, ID := ptr.L }
      match c.movePlayer g1 with
      | (g2, result) => pure (g2, [], result)

/-- The loop `while (result != 0)` of `newMove`; it is entered with
`result = 1`, so the body runs at least once. The recursive call
`newMove(gameInfo, clientAddr, C+32)` is a call with a lower-case key. -/
def slideLoop (c : Collab) : Nat → GameInfo → Addr → Char → Outcome (GameInfo × List Send)
  | 0, _, _, _ => .fail .outOfFuel
  | fuel + 1, g, clientAddr, C => do
      let (g1, out1, result) ← newMoveStep c g clientAddr (Char.ofNat (C.toNat + 32))
      if result = -1 then
        pure (g1, out1)
      else do
        let (g2, out2) ← if result = 2 then pickUp c g1 clientAddr else pure (g1, [])
        let g3 := applyVisibility c g2
        let out3 ← sendMap g3.map g3
        if result ≠ 0 then do
          let (g4, out4) ← slideLoop c fuel g3 clientAddr C
          pure (g4, out1 ++ out2 ++ out3 ++ out4)
        else
          pure (g3, out1 ++ out2 ++ out3)

/-- Embedding of `newMove`. -/
def newMove (c : Collab) (fuel : Nat) (g : GameInfo) (clientAddr : Addr) (C : Char) :
    Outcome (GameInfo × List Send × Int) := do
  let _ptr ← deref (c.findPlayer g clientAddr)
  if isSlideKey C then do
    let (g1, out) ← slideLoop c fuel g clientAddr C
    pure (g1, out, 0)
  else
    newMoveStep c g clientAddr C

/-! ## The dispatcher -/

/-- The test `message[0]=='P' && message[1]=='L' && message[2]=='A' && message[3]=='Y'`. -/
def isPlay (message : String) : Bool :=
  cAt message 0 == 'P' && cAt message 1 == 'L' && cAt message 2 == 'A' && cAt message 3 == 'Y'

/-- The test `message[0]=='K' && message[1]=='E' && message[2]=='Y'`. -/
def isKey (message : String) : Bool :=
  cAt message 0 == 'K' && cAt message 1 == 'E' && cAt message 2 == 'Y'

/-- Embedding of `handleMessage` (for a non-`NULL` `arg`): the new state, the
messages sent, and the return value (`true`: the server should quit). -/
def handleMessage (c : Collab) (fuel : Nat) (g : GameInfo) (clientAddr : Addr)
    (message : String) : Outcome (GameInfo × List Send × Bool) :=
  if g.numPlayers > MaxPlayers then
    pure (g, [(clientAddr, "NO Maximum players reached")]
              ++ (if message = "KEY Q" then [(clientAddr, "QUIT")] else []), false)
  else if message = "SPECTATE" then do
    let (g1, out) ← connectSpectator g clientAddr
    pure (g1, out, false)
  else if isPlay message then do
    let (g1, out) ← connectNewPlayer c g message clientAddr
    pure (g1, out, false)
  else if message = "KEY Q" then
    if g.spectator.connected then
      if g.spectator.clientAddr = clientAddr then
        pure ({ g with spectator := { g.spectator with connected := false } },
              [(clientAddr, "QUIT")], false)
      else
        pure (g, [], false)
    else if (c.findPlayer g clientAddr).isSome then do
      let g1 := c.playerQuit g clientAddr
      let out ← sendMap g1.map g1
      pure (g1, out, false)
    else
      pure (g, [], false)
  else if isKey message then do
    let (g1, out1, result) ← newMove c fuel g clientAddr (cAt message 4)
    let (g2, out2) ← if result = 2 then pickUp c g1 clientAddr else pure (g1, [])
    if result > 0 then do
      let g3 := applyVisibility c g2
      let out3 ← sendMap g3.map g3
      if g3.totalGold = 0 then do
        let (g4, out4) ← sendSummary g3 g3.numPlayers
        pure (g4, out1 ++ out2 ++ out3 ++ out4, true)
      else
        pure (g3, out1 ++ out2 ++ out3, false)
    else
      pure (g2, out1 ++ out2, false)
  else
    pure (g, [], false)

/-- The state after handling a sequence of inbound messages, one
`handleMessage` call each, as `message_loop` does: the loop stops at the
first call that returns `true`. -/
def runMessages (c : Collab) (fuel : Nat) : GameInfo → List (Addr × String) → Outcome GameInfo
  | g, [] => .ok g
  | g, (a, m) :: rest =>
      match handleMessage c fuel g a m with
      | .ok (g1, _, stop) => if stop then .ok g1 else runMessages c fuel g1 rest
      | .fail e => .fail e

/-! ## A reference model of the collaborators

`player.c` and `map.c` are not part of the sources. The definitions of this
section follow the specification's description of the collaborators; they
are used to run the dispatcher on concrete sessions. -/

/-- Modelled from the spec: the cell of a grid text at column `x`, row `y`
(each row is `nC` characters followed by a newline); a blank outside the
grid. The map module (`map.c`) is missing. -/
def cellAt (m : MapT) (x y : Int) : Char :=
  if 0 ≤ x ∧ x < m.nC ∧ 0 ≤ y ∧ y < m.nR then
    ((m.grids.getD "").toList).getD (y * (m.nC + 1) + x).toNat (Char.ofNat 32)
  else Char.ofNat 32

/-- Modelled from the spec: the grid text with the cell at `(x, y)` replaced.
The map module (`map.c`) is missing. -/
def setCell (m : MapT) (x y : Int) (ch : Char) : MapT :=
  let put : String → String :=
    fun s => String.mk (s.toList.set (y * (m.nC + 1) + x).toNat ch)
  { m with grids := m.grids.map put }

/-- Modelled from the spec: a cell is passable when it is floor, passage or
holds a gold cache. The map module (`map.c`) is missing. -/
def passable (ch : Char) : Bool :=
  ch == '.' || ch == '#' || ch == '*'

/-- Modelled from the spec: `findPlayer` of the missing `player.c`, the
admitted player with the given transport address. -/
def refFindPlayer (g : GameInfo) (a : Addr) : Option Player :=
  g.players.find? (fun p => p.clientAddr == a)

/-- Modelled from the spec: `playerQuit` of the missing `player.c`
(KEY Q from a player: mark disconnected). -/
def refPlayerQuit (g : GameInfo) (a : Addr) : GameInfo :=
  let quit : Player → Player :=
    fun p => if p.clientAddr == a then { p with connected := false } else p
  { g with players := g.players.map quit }

/-- Modelled from the spec: `playerConnect` of the missing `player.c`
(PLAY name, roster not full and name non-empty: allocate the next player
slot and assign the letter in connection order; otherwise no player and no
change). -/
def refPlayerConnect (g : GameInfo) (name : String) (a : Addr) : GameInfo × Option Player :=
  if g.players.length < MaxPlayers ∧ name ≠ "" then
    let p : Player :=
      { L := Char.ofNat (65 + g.players.length), realname := name, x := 0, y := 0,
        numNugs := 0, connected := true, clientAddr := a, grids := "" }
    ({ g with players := g.players ++ [p] }, some p)
  else (g, none)

/-- Modelled from the spec: whether no connected player stands on `(x, y)`
(players occupy distinct cells). The player module (`player.c`) is missing. -/
def cellFree (g : GameInfo) (x y : Int) : Bool :=
  g.players.all (fun p => !(p.connected && p.x == x && p.y == y))

/-- Modelled from the spec: `randomizeOnePlayerLoc` of the missing
`player.c` (place at an unoccupied cell); the random choice is replaced by
the first unoccupied floor cell in reading order. -/
def refRandomizeOnePlayerLoc (g : GameInfo) (a : Addr) : GameInfo :=
  let others : GameInfo :=
    { g with players := g.players.filter (fun p => p.clientAddr != a) }
  let cells : List (Int × Int) :=
    (List.range g.map.nR.toNat).flatMap
      (fun r => (List.range g.map.nC.toNat).map (fun k => ((k : Int), (r : Int))))
  match cells.find? (fun xy => cellAt g.map xy.1 xy.2 == '.' && cellFree others xy.1 xy.2) with
  | some (x, y) =>
      let place : Player → Player :=
        fun p => if p.clientAddr == a then { p with x := x, y := y } else p
      { g with players := g.players.map place }
  | none => g

/-- Modelled from the spec: `movePlayer` of the missing `player.c`, steps 3
to 6 of the movement resolver for the candidate cell `(g.x, g.y)` and the
mover with letter `g.ID`: `0` invalid, `1` moved, `2` moved onto gold, `3`
swapped with another player. -/
def refMovePlayer (g : GameInfo) : GameInfo × Int :=
  let ch := cellAt g.map g.x g.y
  if !passable ch then (g, 0)
  else
    match g.players.find? (fun p => p.L == g.ID) with
    | none => (g, 0)
    | some mover =>
      match g.players.find? (fun p => p.connected && p.x == g.x && p.y == g.y && p.L != g.ID) with
      | some other =>
          let swap : Player → Player := fun p =>
            if p.L == g.ID then { p with x := g.x, y := g.y }
            else if p.L == other.L then { p with x := mover.x, y := mover.y }
            else p
          ({ g with players := g.players.map swap }, 3)
      | none =>
          if ch == '*' then
            let q : Int :=
              match g.goldBags.find? (fun b => b.x == g.x && b.y == g.y) with
              | some b => b.numNugs
              | none => 0
            let take : Player → Player := fun p =>
              if p.L == g.ID then { p with x := g.x, y := g.y, numNugs := p.numNugs + q }
              else p
            ({ g with players := g.players.map take, map := setCell g.map g.x g.y '.' }, 2)
          else
            let move : Player → Player := fun p =>
              if p.L == g.ID then { p with x := g.x, y := g.y } else p
            ({ g with players := g.players.map move }, 1)

/-- Modelled from the spec: `findGoldBag` of the missing `map.c`, the bag
placed at `(x, y)` among the first `n` bags. -/
def refFindGoldBag (n : Nat) (x y : Int) (bags : List GoldBag) : Option GoldBag :=
  (bags.take n).find? (fun b => b.x == x && b.y == y)

/-- Modelled from the spec: `updateVisibility` of the missing `map.c`; every
player's view is recomputed from the authoritative grid, here without
masking. -/
def refUpdateVisibility (map : MapT) (players : List Player) (_n : Nat) (mapRaw : MapT) :
    MapT × List Player × MapT :=
  let see : Player → Player := fun p => { p with grids := map.grids.getD "" }
  (map, players.map see, mapRaw)

/-- Modelled from the spec: the collaborators of the missing `player.c` and
`map.c`, put together. -/
def refCollab : Collab :=
  { findPlayer := refFindPlayer
    playerQuit := refPlayerQuit
    playerConnect := refPlayerConnect
    randomizeOnePlayerLoc := refRandomizeOnePlayerLoc
    movePlayer := refMovePlayer
    findGoldBag := refFindGoldBag
    updateVisibility := refUpdateVisibility }

/-! ## Reading a result -/

/-- The messages sent by a call of the dispatcher. -/
def Outcome.sent (r : Outcome (GameInfo × List Send × Bool)) : Outcome (List Send) :=
  match r with
  | .ok (_, out, _) => .ok out
  | .fail e => .fail e

/-- The state left by a call of the dispatcher. -/
def Outcome.state (r : Outcome (GameInfo × List Send × Bool)) : Outcome GameInfo :=
  match r with
  | .ok (g, _, _) => .ok g
  | .fail e => .fail e

/-- The return value of a call of the dispatcher. -/
def Outcome.stop (r : Outcome (GameInfo × List Send × Bool)) : Outcome Bool :=
  match r with
  | .ok (_, _, b) => .ok b
  | .fail e => .fail e

/-- The value of a result, or a default when the run faulted. -/
def Outcome.getD {α : Type} (r : Outcome α) (d : α) : α :=
  match r with
  | .ok a => a
  | .fail _ => d

/-! ## Specification-side notions -/

/-- The ranking asked for by the specification: `after` lists the players of
`before` by purse, descending, and players with equal purses keep the order
they have in `before`. -/
def StableRanking (before after : List Player) : Prop :=
  after.Perm before
    ∧ after.Pairwise (fun p q => q.numNugs ≤ p.numNugs)
    ∧ ∀ v : Int, after.filter (fun p => decide (p.numNugs = v))
        = before.filter (fun p => decide (p.numNugs = v))

/-- The sixteen keys that `newMove` treats as a move: the eight direction
letters in lower and in upper case. -/
def moveKeys : List Char :=
  ['h', 'j', 'k', 'l', 'y', 'u', 'b', 'n', 'H', 'J', 'K', 'L', 'Y', 'U', 'B', 'N']

/-! ## Concrete sessions -/

/-- A map of one row whose cells are the characters of `row`. -/
def rowMap (row : String) : MapT :=
  { grids := some (row ++ "\n"), nR := 1, nC := row.length }

/-- The session as `main` sets it up before the first message, on a one-row
map: no player, no spectator, `GoldTotal` nuggets in the given bags. The raw
map is the file text; the gold is placed on the live map. -/
def startSession (rawRow liveRow : String) (bags : List GoldBag) : GameInfo :=
  { players := [], numPlayers := 0, mapRaw := rowMap rawRow, map := rowMap liveRow,
    spectator := { connected := false, clientAddr := 0 },
    goldBags := bags, GoldNumPiles := bags.length, totalGold := GoldTotal,
    x := 0, y := 0, ID := 'A' }

/-- A gallery of twelve cells with ten gold bags on cells 1 to 10: nine of
27 nuggets and a last one of 7. -/
def mineStart : GameInfo :=
  startSession "............" ".**********."
    ((List.range 9).map (fun i => { numNugs := 27, x := (i : Int) + 1, y := 0 })
      ++ [{ numNugs := 7, x := 10, y := 0 }])

/-- The gallery after client 1 has joined as `bob` and stepped right nine
times: nine bags are collected and the last bag, of 7 nuggets, lies on the
cell to the right of the player. -/
def lateGame : GameInfo :=
  (runMessages refCollab 4 mineStart ((1, "PLAY bob") :: List.replicate 9 (1, "KEY l"))).getD
    mineStart

/-- The session `lateGame` after client 2 has connected as spectator. -/
def watchedGame : GameInfo :=
  (runMessages refCollab 4 lateGame [(2, "SPECTATE")]).getD lateGame

/-- A hall of forty cells with ten gold bags of 25 nuggets on cells 28 to 37. -/
def hallStart : GameInfo :=
  startSession "........................................"
    "............................**********.."
    ((List.range 10).map (fun i => { numNugs := 25, x := (i : Int) + 28, y := 0 }))

/-- The PLAY requests of the clients `1`, ..., `n`. -/
def playRequests (n : Nat) : List (Addr × String) :=
  (List.range n).map (fun i => (i + 1, "PLAY p"))

/-- The hall after the clients 1 to 26 have joined: the roster is full. -/
def fullSession : GameInfo :=
  (runMessages refCollab 4 hallStart (playRequests 26)).getD hallStart

/-- A finished game with three players, two of them with equal purses. -/
def podium : GameInfo :=
  { mineStart with
    players :=
      [{ L := 'A', realname := "ann", x := 0, y := 0, numNugs := 100, connected := true,
         clientAddr := 1, grids := "............\n" },
       { L := 'B', realname := "ben", x := 5, y := 0, numNugs := 50, connected := false,
         clientAddr := 2, grids := "............\n" },
       { L := 'C', realname := "cy", x := 11, y := 0, numNugs := 100, connected := true,
         clientAddr := 3, grids := "............\n" }],
    numPlayers := 3, map := rowMap "............", totalGold := 0 }

/-! ## Reading what was sent -/

/-- The texts sent to the address `a`, in the order in which they were sent. -/
def sentTo (out : List Send) (a : Addr) : List String :=
  (out.filter (fun s => decide (s.1 = a))).map (fun s => s.2)

/-- The addresses of the players `players[0]`, ..., `players[numPlayers-1]`. -/
def rosterAddrs (g : GameInfo) : List Addr :=
  (g.players.take g.numPlayers).map (fun p => p.clientAddr)

/-! ## Start-up: the grid dimensions -/

/-- The two nested loops of `getColRow` on the text from index `i` on.
`inLine` tells whether the inner loop `while (gridRaw[i] != '\n')` is running;
`done` is the flag of the code. The outer loop ends at the terminating NUL;
the inner loop does not test for it, so a text that ends inside a line makes
it read past the terminator: no result. -/
def getColRowLoop : Bool → Bool → Int → Int → List Char → Option (Int × Int)
  | false, _, col, row, [] => some (col, row)
  | true, _, _, _, [] => none
  | _, done, col, row, ch :: rest =>
      if ch = Char.ofNat 10 then getColRowLoop false true col (row + 1) rest
      else getColRowLoop true done (if done then col else col + 1) row rest

/-- Embedding of `getColRow(gridRaw, &col, &row)`: the final values of `*col`
and `*row`. -/
def getColRow (gridRaw : String) (col row : Int) : Option (Int × Int) :=
  getColRowLoop false false col row gridRaw.toList

/-- Embedding of `gridInit`. -/
def gridInit (g : GameInfo) : Option GameInfo := do
  let gridRaw ← g.mapRaw.grids
  let (nC, nR) ← getColRow gridRaw 0 0
  some { g with map := { g.map with nR := nR, nC := nC },
                mapRaw := { g.mapRaw with nR := nR, nC := nC } }

/-! ## The slide loop with its calls recorded -/

/-- The calls made while a move is handled, in program order. -/
inductive Event where
  /-- The call `movePlayer(gameInfo)` of `newMove`: the player `findPlayer`
  returned, the cell `(x, y)` and the letter `ID` handed over, the result. -/
  | step (mover : Player) (x y : Int) (ID : Char) (result : Int)
  /-- The call of `sendGoldInfo` after a move onto gold, with what it sent. -/
  | gold (out : List Send)
  /-- The call of `updateVisibility`. -/
  | visibility
  /-- The call of `sendMap`, with what it sent. -/
  | map (out : List Send)
  /-- Another `message_send` call. -/
  | reply (out : List Send)
deriving DecidableEq, Repr

/-- The messages sent by a sequence of calls. -/
def sendsOf : List Event → List Send
  | [] => []
  | .step _ _ _ _ _ :: rest => sendsOf rest
  | .gold out :: rest => out ++ sendsOf rest
  | .visibility :: rest => sendsOf rest
  | .map out :: rest => out ++ sendsOf rest
  | .reply out :: rest => out ++ sendsOf rest

/-- The function `newMoveStep` with its calls recorded. -/
def newMoveStepEvents (c : Collab) (g : GameInfo) (clientAddr : Addr) (C : Char) :
    Outcome (GameInfo × List Event × Int) := do
  let ptr ← deref (c.findPlayer g clientAddr)
  match keyVector C with
  | none => pure (g, [.reply [(clientAddr, "NO Invalid key")]], 0)
  | some (dx, dy) =>
      let g1 := { g with x := ptr.x + dx, y := ptr.y + dy, ID := ptr.L }
      match c.movePlayer g1 with
      | (g2, result) => pure (g2, [.step ptr g1.x g1.y g1.ID result], result)

/-- The function `slideLoop` with its calls recorded. -/
def slideEvents (c : Collab) : Nat → GameInfo → Addr → Char → Outcome (GameInfo × List Event)
  | 0, _, _, _ => .fail .outOfFuel
  | fuel + 1, g, clientAddr, C => do
      let (g1, ev1, result) ← newMoveStepEvents c g clientAddr (Char.ofNat (C.toNat + 32))
      if result = -1 then
        pure (g1, ev1)
      else do
        let (g2, ev2) ←
          if result = 2 then do
            let (g2, out2) ← pickUp c g1 clientAddr
            pure (g2, [Event.gold out2])
          else pure (g1, [])
        let g3 := applyVisibility c g2
        let out3 ← sendMap g3.map g3
        if result ≠ 0 then do
          let (g4, ev4) ← slideEvents c fuel g3 clientAddr C
          pure (g4, ev1 ++ ev2 ++ [Event.visibility, Event.map out3] ++ ev4)
        else
          pure (g3, ev1 ++ ev2 ++ [Event.visibility, Event.map out3])

/-- Whether the calls that follow a `movePlayer` call with result `r` start
as they must: for result 2 (moved onto gold) the gold broadcast, the
visibility update and the map broadcast; for the results 1 (moved) and 3
(moved onto a player) the visibility update and the map broadcast. -/
def followedByBroadcast (r : Int) : List Event → Bool
  | .gold _ :: .visibility :: .map _ :: _ => r ≠ 1 ∧ r ≠ 3
  | .visibility :: .map _ :: _ => r ≠ 2
  | _ => r ≠ 1 ∧ r ≠ 2 ∧ r ≠ 3

/-- Whether every `movePlayer` call with one of the results 1, 2 and 3 is
followed at once, before the next `movePlayer` call, by its broadcasts. -/
def stepsBroadcast : List Event → Bool
  | [] => true
  | .step _ _ _ _ r :: rest => followedByBroadcast r rest && stepsBroadcast rest
  | _ :: rest => stepsBroadcast rest

/-- The number of `movePlayer` calls with result 1, 2 or 3. -/
def successfulSteps : List Event → Nat
  | [] => 0
  | .step _ _ _ _ r :: rest =>
      (if r = 1 ∨ r = 2 ∨ r = 3 then 1 else 0) + successfulSteps rest
  | _ :: rest => successfulSteps rest

/-- The number of `sendMap` calls. -/
def mapBroadcasts : List Event → Nat
  | [] => 0
  | .map _ :: rest => 1 + mapBroadcasts rest
  | _ :: rest => mapBroadcasts rest

/-- The direction keys as the specification lists them: lower-case key,
upper-case key, and the change `(dx, dy)` of column and row. -/
def directionTable : List (Char × Char × Int × Int) :=
  [('h', 'H', -1, 0), ('l', 'L', 1, 0), ('k', 'K', 0, -1), ('j', 'J', 0, 1),
   ('y', 'Y', -1, -1), ('u', 'U', 1, -1), ('b', 'B', -1, 1), ('n', 'N', 1, 1)]

/-- The line of the summary for the player at position `i` of the ranking,
as the specification describes it: `<rank>. <letter> <name> <purse>`. -/
def specLine (ip : Nat × Player) : String :=
  toString (ip.1 + 1) ++ ". " ++ String.singleton ip.2.L ++ " " ++ ip.2.realname ++ " "
    ++ toString ip.2.numNugs ++ "\n"

/-- The summary as the specification describes it: the line `GAMEOVER`, then
one line per player of the ranking, with the ranks 1, 2, ... -/
def specSummary (ranked : List Player) : String :=
  "GAMEOVER\n" ++ (ranked.enum.map specLine).foldr (fun line rest => line ++ rest) ""

/-! ## Further concrete sessions -/

/-- The player `bob` of `lateGame`. -/
def bob : Player :=
  { L := 'A', realname := "bob", x := 9, y := 0, numNugs := 243, connected := true,
    clientAddr := 1, grids := "..........*.\n" }

/-- The bag of 7 nuggets on cell 10 of the gallery. -/
def lastBag : GoldBag :=
  { numNugs := 7, x := 10, y := 0 }

/-- The session `lateGame` right after `movePlayer` has moved `bob` one cell
to the right, onto the last bag. -/
def onLastBag : GameInfo :=
  (refMovePlayer { lateGame with x := 10, y := 0, ID := 'A' }).1

/-- The result of handling the single step `KEY l` of client 1 in `lateGame`. -/
def stepEnd : GameInfo × List Send × Bool :=
  (handleMessage refCollab 4 lateGame 1 "KEY l").getD (lateGame, [], false)

/-- The result of the slide loop for the key `L` of client 1 in `lateGame`. -/
def slideEnd : GameInfo × List Send :=
  (slideLoop refCollab 5 lateGame 1 'L').getD (lateGame, [])

/-- The calls of the slide loop for the key `L` of client 1 in `lateGame`. -/
def slideTrace : GameInfo × List Event :=
  (slideEvents refCollab 4 lateGame 1 'L').getD (lateGame, [])

/-- The session `podium` with client 9 connected as spectator. -/
def watchedPodium : GameInfo :=
  { podium with spectator := { connected := true, clientAddr := 9 } }

/-- The gallery right after `playerConnect` has added client 1 as `bob`. -/
def connected1 : GameInfo × Option Player :=
  refPlayerConnect { mineStart with numPlayers := 1 } "bob" 1

/-- The gallery after the PLAY request of client 1 has been handled. -/
def joined : GameInfo :=
  (handleMessage refCollab 4 mineStart 1 "PLAY bob").state.getD mineStart

/-! ## Start-up: the gold bags -/

/-- Embedding of `goldInit`. The functions `randNumInRange` and
`randomizeNuggets` are not part of the sources and are parameters: the first
draws the number of bags, the second fills the freshly allocated array of
that many bags and places the bags on the map. -/
def goldInit (randNumInRange : Nat → Nat → Nat)
    (randomizeNuggets : MapT → Int → Nat → MapT × List GoldBag) (g : GameInfo) : GameInfo :=
  let GoldNumPiles := randNumInRange GoldMinNumPiles GoldMaxNumPiles
  match randomizeNuggets g.map GoldTotal GoldNumPiles with
  | (m, goldBags) =>
      { g with GoldNumPiles := GoldNumPiles, goldBags := goldBags, totalGold := GoldTotal,
               map := m }

/-- Modelled from the spec: a `findGoldBag` of the missing `map.c` that is
held to the allocated array: told to range over more bags than the array
has, it has no bag to return. -/
def boundedFindGoldBag (n : Nat) (x y : Int) (bags : List GoldBag) : Option GoldBag :=
  if n ≤ bags.length then refFindGoldBag n x y bags else none

/-- Modelled from the spec: the reference collaborators with the lookup
held to the allocated array of bags. -/
def boundedCollab : Collab :=
  { refCollab with findGoldBag := boundedFindGoldBag }

/-! ## A session of ten players -/

/-- The hall after ten clients have joined, each as `p`: ten players with
purse 0. -/
def tenJoined : GameInfo :=
  (runMessages refCollab 4 hallStart (playRequests 10)).getD hallStart

/-! ## Positions of the message that are read -/

/-- The positions read by the test
`message[0]=='P' && message[1]=='L' && message[2]=='A' && message[3]=='Y'`;
`&&` reads the next position only when the test before it held. -/
def playTestReads (message : String) : List Nat :=
  if cAt message 0 = 'P' then
    if cAt message 1 = 'L' then
      if cAt message 2 = 'A' then [0, 1, 2, 3] else [0, 1, 2]
    else [0, 1]
  else [0]

/-- The positions read by the test
`message[0]=='K' && message[1]=='E' && message[2]=='Y'`. -/
def keyTestReads (message : String) : List Nat :=
  if cAt message 0 = 'K' then
    if cAt message 1 = 'E' then [0, 1, 2] else [0, 1]
  else [0]

/-- The positions read by `strlen(message+5)` and `strcpy(playerName,
message+5)` in `addNewPlayer`: from position 5 up to the first NUL found
there. When the text has fewer than 5 characters that NUL is not the
terminator of the message, and position 5 is read in any case. -/
def nameReads (message : String) : List Nat :=
  if 5 ≤ message.length then (List.range (message.length + 1)).drop 5 else [5]

/-- The positions of `message` that `handleMessage` and the handlers it
calls read by index or offset, in program order. (`fprintf` and `strcmp`
read from position 0 and stop at the terminator at the latest.) -/
def readPositions (g : GameInfo) (message : String) : List Nat :=
  if g.numPlayers > MaxPlayers then []
  else if message = "SPECTATE" then []
  else if isPlay message then playTestReads message ++ nameReads message
  else if message = "KEY Q" then playTestReads message
  else if isKey message then playTestReads message ++ keyTestReads message ++ [4]
  else playTestReads message ++ keyTestReads message

/-! ## The fraction calculator (`fractions.cpp`) -/

/-- The largest value of the C++ type `int`. -/
def INT_MAX : Int := 2147483647

/-- The value of a 32-bit `int` computation whose exact result is `x`. -/
def wrapInt (x : Int) : Int :=
  (x + 2147483648) % 4294967296 - 2147483648

/-- The class `fraction`: two `int` fields. -/
structure Fraction where
  numerator : Int
  denominator : Int
deriving DecidableEq, Repr

/-- The loop `while (i <= end)` of `fraction::simp`, run at most `fuel`
times round; no result when the loop has not ended by then or divides by
zero. `%` and `/` are those of C++, which truncate. -/
def simpLoop : Nat → Int → Int → Fraction → Option Fraction
  | 0, _, _, _ => none
  | fuel + 1, i, endVal, f =>
      if i ≤ endVal then
        if i = 0 then none
        else if f.numerator.tmod i = 0 ∧ f.denominator.tmod i = 0 then
          simpLoop fuel 2 endVal
            { numerator := wrapInt (f.numerator.tdiv i),
              denominator := wrapInt (f.denominator.tdiv i) }
        else simpLoop fuel (wrapInt (i + 1)) endVal f
      else some f

/-- Embedding of `fraction::simp`: the fraction it leaves, when the loop ends
within `fuel` times round. -/
def Fraction.simp (f : Fraction) (fuel : Nat) : Option Fraction :=
  simpLoop fuel 2 (if f.numerator > f.denominator then f.denominator else f.numerator) f

/-- Whether a value is one an `int` can hold. -/
def isInt (x : Int) : Prop :=
  -2147483648 ≤ x ∧ x ≤ INT_MAX

/-! ## Lemmas on the result type -/

@[simp] theorem bind_ok {α β : Type} (a : α) (k : α → Outcome β) :
    (Outcome.ok a >>= k) = k a := rfl

@[simp] theorem bind_fail {α β : Type} (e : Fault) (k : α → Outcome β) :
    (Outcome.fail e >>= k) = Outcome.fail e := rfl

@[simp] theorem pure_eq_ok {α : Type} (a : α) : (pure a : Outcome α) = Outcome.ok a := rfl

/-! ## Lemmas on the ranking loops -/

theorem bubbleFrom_perm (a : Player) (t : List Player) : (bubbleFrom a t).Perm (a :: t) := by
  induction t generalizing a with
  | nil => exact List.Perm.refl _
  | cons b t ih =>
    unfold bubbleFrom
    split
    · exact ((ih a).cons b).trans (List.Perm.swap a b t)
    · exact (ih b).cons a

theorem bubbleFrom_filter (v : Int) (a : Player) (t : List Player) :
    (bubbleFrom a t).filter (fun p => decide (p.numNugs = v))
      = (a :: t).filter (fun p => decide (p.numNugs = v)) := by
  induction t generalizing a with
  | nil => rfl
  | cons b t ih =>
    unfold bubbleFrom
    split
    · rename_i hlt
      rw [List.filter_cons, ih a]
      by_cases hb : b.numNugs = v
      · have ha : a.numNugs ≠ v := by omega
        simp [List.filter_cons, hb, ha]
      · simp [List.filter_cons, hb]
    · simp only [List.filter_cons, ih b]

theorem bubbleFrom_sorted (a : Player) (t : List Player)
    (h : (a :: t).Pairwise (fun p q => q.numNugs ≤ p.numNugs)) : bubbleFrom a t = a :: t := by
  induction t generalizing a with
  | nil => rfl
  | cons b t ih =>
    rw [List.pairwise_cons] at h
    have hab : b.numNugs ≤ a.numNugs := h.1 b (List.mem_cons_self _ _)
    unfold bubbleFrom
    rw [if_neg (by omega), ih b h.2]

theorem bubbleFrom_append (s : List Player)
    (hs : s.Pairwise (fun p q => q.numNugs ≤ p.numNugs)) (a : Player) (t : List Player)
    (h : ∀ x ∈ a :: t, ∀ y ∈ s, y.numNugs ≤ x.numNugs) :
    bubbleFrom a (t ++ s) = bubbleFrom a t ++ s := by
  induction t generalizing a with
  | nil =>
    have : (a :: s).Pairwise (fun p q => q.numNugs ≤ p.numNugs) :=
      List.pairwise_cons.mpr ⟨fun y hy => h a (List.mem_cons_self _ _) y hy, hs⟩
    simpa [bubbleFrom] using bubbleFrom_sorted a s this
  | cons b t ih =>
    have ha : ∀ x ∈ a :: t, ∀ y ∈ s, y.numNugs ≤ x.numNugs := by
      intro x hx
      apply h
      rcases List.mem_cons.mp hx with hx | hx
      · simp [hx]
      · simp [hx]
    have hb : ∀ x ∈ b :: t, ∀ y ∈ s, y.numNugs ≤ x.numNugs := by
      intro x hx
      exact h x (List.mem_cons_of_mem _ hx)
    show bubbleFrom a (b :: (t ++ s)) = bubbleFrom a (b :: t) ++ s
    unfold bubbleFrom
    split
    · rw [ih a ha]; rfl
    · rw [ih b hb]; rfl

theorem bubbleFrom_last (a : Player) (t : List Player) :
    ∃ front m, bubbleFrom a t = front ++ [m] ∧ ∀ x ∈ a :: t, m.numNugs ≤ x.numNugs := by
  induction t generalizing a with
  | nil => exact ⟨[], a, rfl, by simp⟩
  | cons b t ih =>
    unfold bubbleFrom
    split
    · rename_i hlt
      obtain ⟨front, m, he, hm⟩ := ih a
      refine ⟨b :: front, m, by rw [he]; rfl, ?_⟩
      intro x hx
      have hma := hm a (List.mem_cons_self _ _)
      rcases List.mem_cons.mp hx with hx | hx
      · subst hx; exact hma
      · rcases List.mem_cons.mp hx with hx | hx
        · subst hx; omega
        · exact hm x (List.mem_cons_of_mem _ hx)
    · rename_i hlt
      obtain ⟨front, m, he, hm⟩ := ih b
      refine ⟨a :: front, m, by rw [he]; rfl, ?_⟩
      intro x hx
      have hmb := hm b (List.mem_cons_self _ _)
      rcases List.mem_cons.mp hx with hx | hx
      · subst hx; omega
      · exact hm x hx

theorem rankPlayers_sorted_aux (n : Nat) : ∀ (l1 l2 : List Player), l1.length ≤ n →
    l2.Pairwise (fun p q => q.numNugs ≤ p.numNugs) →
    (∀ x ∈ l1, ∀ y ∈ l2, y.numNugs ≤ x.numNugs) →
    (rankPlayers n (l1 ++ l2)).Pairwise (fun p q => q.numNugs ≤ p.numNugs) := by
  induction n with
  | zero =>
    intro l1 l2 hlen hs _
    have : l1 = [] := List.length_eq_zero.mp (by omega)
    subst this
    simpa [rankPlayers] using hs
  | succ n ih =>
    intro l1 l2 hlen hs hle
    cases l1 with
    | nil =>
      have hpass : bubblePass l2 = l2 := by
        cases l2 with
        | nil => rfl
        | cons b t => exact bubbleFrom_sorted b t hs
      have := ih [] l2 (by simp) hs (by simp)
      simpa [rankPlayers, hpass] using this
    | cons a t =>
      have hstep : bubblePass (a :: t ++ l2) = bubbleFrom a t ++ l2 :=
        bubbleFrom_append l2 hs a t hle
      obtain ⟨front, m, he, hm⟩ := bubbleFrom_last a t
      have hperm := bubbleFrom_perm a t
      rw [he] at hperm
      have hmem : ∀ x, x ∈ front ++ [m] → x ∈ a :: t := fun x hx => hperm.mem_iff.mp hx
      have hlen2 : front.length ≤ n := by
        have := hperm.length_eq
        simp at this hlen
        omega
      have hs2 : (m :: l2).Pairwise (fun p q => q.numNugs ≤ p.numNugs) :=
        List.pairwise_cons.mpr ⟨fun y hy => hle m (hmem m (by simp)) y hy, hs⟩
      have hle2 : ∀ x ∈ front, ∀ y ∈ m :: l2, y.numNugs ≤ x.numNugs := by
        intro x hx y hy
        have hx2 : x ∈ a :: t := hmem x (by simp [hx])
        rcases List.mem_cons.mp hy with hy | hy
        · subst hy; exact hm x hx2
        · exact hle x hx2 y hy
      have := ih front (m :: l2) hlen2 hs2 hle2
      show (rankPlayers n (bubblePass (a :: t ++ l2))).Pairwise _
      rw [hstep, he]
      simpa using this

theorem bubblePass_perm (l : List Player) : (bubblePass l).Perm l := by
  cases l with
  | nil => exact List.Perm.refl _
  | cons a t => exact bubbleFrom_perm a t

theorem bubblePass_filter (v : Int) (l : List Player) :
    (bubblePass l).filter (fun p => decide (p.numNugs = v))
      = l.filter (fun p => decide (p.numNugs = v)) := by
  cases l with
  | nil => rfl
  | cons a t => exact bubbleFrom_filter v a t

theorem rankPlayers_perm (n : Nat) (l : List Player) : (rankPlayers n l).Perm l := by
  induction n generalizing l with
  | zero => exact List.Perm.refl _
  | succ n ih => exact (ih (bubblePass l)).trans (bubblePass_perm l)

theorem rankPlayers_filter (v : Int) (n : Nat) (l : List Player) :
    (rankPlayers n l).filter (fun p => decide (p.numNugs = v))
      = l.filter (fun p => decide (p.numNugs = v)) := by
  induction n generalizing l with
  | zero => rfl
  | succ n ih => exact (ih (bubblePass l)).trans (bubblePass_filter v l)

theorem rankPlayers_sorted (l : List Player) :
    (rankPlayers l.length l).Pairwise (fun p q => q.numNugs ≤ p.numNugs) := by
  have := rankPlayers_sorted_aux l.length l [] le_rfl List.Pairwise.nil (by simp)
  simpa using this


theorem set_neighbours (front : List Player) (a b : Player) (t : List Player) :
    ((front ++ a :: b :: t).set front.length b).set (front.length + 1) a
      = front ++ b :: a :: t := by
  induction front with
  | nil => rfl
  | cons c front ih => simp [ih]

theorem getElem?_left_neighbour (front : List Player) (a b : Player) (t : List Player) :
    (front ++ a :: b :: t)[front.length]? = some a := by
  induction front with
  | nil => rfl
  | cons c front ih => simpa using ih

theorem getElem?_right_neighbour (front : List Player) (a b : Player) (t : List Player) :
    (front ++ a :: b :: t)[front.length + 1]? = some b := by
  induction front with
  | nil => simp
  | cons c front ih => simpa using ih

theorem swapStep_at (front : List Player) (a b : Player) (t : List Player) :
    swapStep (front ++ a :: b :: t) front.length
      = if a.numNugs < b.numNugs then front ++ b :: a :: t else front ++ a :: b :: t := by
  simp only [swapStep, getElem?_left_neighbour, getElem?_right_neighbour, set_neighbours]

theorem foldl_swapStep (t : List Player) : ∀ (front : List Player) (a : Player),
    (List.range' front.length t.length).foldl swapStep (front ++ a :: t)
      = front ++ bubbleFrom a t := by
  induction t with
  | nil => intro front a; rfl
  | cons b t ih =>
    intro front a
    simp only [List.length_cons, List.range'_succ, List.foldl_cons]
    rw [swapStep_at]
    unfold bubbleFrom
    split
    · have := ih (front ++ [b]) a
      simpa using this
    · have := ih (front ++ [a]) b
      simpa using this

theorem innerLoop_eq (l : List Player) : innerLoop l.length l = bubblePass l := by
  cases l with
  | nil => rfl
  | cons a t =>
    have := foldl_swapStep t [] a
    simpa [innerLoop, List.range_eq_range'] using this

theorem bubblePass_length (l : List Player) : (bubblePass l).length = l.length :=
  (bubblePass_perm l).length_eq

theorem rankLoops_eq_aux (n k : Nat) : ∀ l : List Player, l.length = n →
    (List.range k).foldl (fun ps _ => innerLoop n ps) l = rankPlayers k l := by
  induction k with
  | zero => intro l _; rfl
  | succ k ih =>
    intro l hl
    rw [List.range_succ_eq_map, List.foldl_cons, List.foldl_map]
    subst hl
    rw [innerLoop_eq]
    exact ih (bubblePass l) (bubblePass_length l)

theorem rankLoops_eq (l : List Player) : rankLoops l.length l = rankPlayers l.length l :=
  rankLoops_eq_aux l.length l.length l rfl

theorem rankLoops_length (l : List Player) : (rankLoops l.length l).length = l.length := by
  rw [rankLoops_eq]
  exact (rankPlayers_perm _ _).length_eq

/-! ## Lemmas on the formatting of the summary -/

theorem strlen_append (a b : String) : strlen (a ++ b) = strlen a + strlen b := by
  cases a with
  | mk x =>
    cases b with
    | mk y =>
      show String.utf8ByteSize ⟨x ++ y⟩ = String.utf8ByteSize ⟨x⟩ + String.utf8ByteSize ⟨y⟩
      simp

theorem overflowing_cons (i : Nat) (p : Player) (t : List Player) :
    (((p :: t).enumFrom i).filter (fun ip => decide (tempSize ip.2 < lineBytes ip.1 ip.2))).map
        (fun ip => ip.1)
      = (if tempSize p < lineBytes i p then [i] else [])
        ++ ((t.enumFrom (i + 1)).filter
              (fun ip => decide (tempSize ip.2 < lineBytes ip.1 ip.2))).map (fun ip => ip.1) := by
  by_cases h : tempSize p < lineBytes i p
  · simp [List.enumFrom_cons, List.filter_cons, h]
  · simp [List.enumFrom_cons, List.filter_cons, h]

/-- The formatting loop returns the text with every line appended when no
line is longer than its `temp`, and faults otherwise: the buffer of the
whole summary is large enough whenever every `temp` is. -/
theorem formatLines_eq (size : Nat) (ps : List Player) : ∀ (i : Nat) (summary : String),
    strlen summary + 1 + summaryLength ps + 7 * ps.length ≤ size →
    formatLines size i summary ps
      = if ((ps.enumFrom i).filter
              (fun ip => decide (tempSize ip.2 < lineBytes ip.1 ip.2))).map (fun ip => ip.1) = []
        then .ok (summary ++ summaryLines i ps) else .fail .bufferOverflow := by
  induction ps with
  | nil =>
    intro i summary _
    simp [formatLines, summaryLines]
  | cons p t ih =>
    intro i summary hsize
    rw [overflowing_cons]
    unfold formatLines
    by_cases h : tempSize p < lineBytes i p
    · simp [h]
    · have hline : strlen (summaryLine i p) + 1 ≤ strlen p.realname + numDigits p.numNugs + 8 := by
        unfold tempSize lineBytes at h
        omega
      simp only [summaryLength, List.length_cons] at hsize
      have hfit : ¬ (size < strlen summary + strlen (summaryLine i p) + 1) := by omega
      rw [if_neg h, if_neg hfit, ih (i + 1) (summary ++ summaryLine i p)
        (by rw [strlen_append]; omega)]
      simp only [if_neg h, List.nil_append, summaryLines, String.append_assoc]

theorem summaryFormat_eq (ranked : List Player) :
    formatLines (summarySize ranked) 0 "GAMEOVER\n" ranked
      = if overflowingLines ranked = [] then .ok (summaryText ranked)
        else .fail .bufferOverflow := by
  have h9 : strlen "GAMEOVER\n" = 9 := by decide
  rw [formatLines_eq (summarySize ranked) ranked 0 "GAMEOVER\n"
    (by unfold summarySize; omega)]
  rfl

/-! ## Lemmas on the dispatcher -/

theorem keyVector_none_of_not_moveKey (C : Char) (h : C ∉ moveKeys) : keyVector C = none := by
  simp [moveKeys] at h
  simp [keyVector, h]

theorem isSlideKey_false_of_not_moveKey (C : Char) (h : C ∉ moveKeys) :
    isSlideKey C = false := by
  simp [moveKeys] at h
  simp [isSlideKey, h]

theorem not_spectate_of_isKey (message : String) (h : isKey message = true) :
    message ≠ "SPECTATE" := by
  rintro rfl
  revert h
  decide

theorem not_isPlay_of_isKey (message : String) (h : isKey message = true) :
    isPlay message = false := by
  simp [isKey] at h
  simp [isPlay, h.1.1]

/-- A slide never makes `handleMessage` return `true`: `newMove` returns `0`
for every upper-case direction, whatever happened to the gold in its loop. -/
theorem handleMessage_slide_stop (c : Collab) (fuel : Nat) (g : GameInfo) (clientAddr : Addr)
    (message : String) (hcap : g.numPlayers ≤ MaxPlayers) (hkey : isKey message = true)
    (hquit : message ≠ "KEY Q") (hslide : isSlideKey (cAt message 4) = true)
    (r : GameInfo × List Send × Bool)
    (hr : handleMessage c fuel g clientAddr message = .ok r) : r.2.2 = false := by
  have h1 := not_spectate_of_isKey message hkey
  have h2 := not_isPlay_of_isKey message hkey
  have hcap2 : ¬ g.numPlayers > MaxPlayers := by omega
  simp only [handleMessage, hcap2, h1, h2, hquit, hkey, newMove, hslide, if_true, if_false,
    Bool.false_eq_true] at hr
  cases hf : deref (c.findPlayer g clientAddr) with
  | fail e => simp [hf] at hr
  | ok ptr =>
    cases hs : slideLoop c fuel g clientAddr (cAt message 4) with
    | fail e => simp [hf, hs] at hr
    | ok v =>
      simp [hf, hs] at hr
      rw [← hr]

/-- A PLAY message for which `playerConnect` returns `NULL` is answered with
the NO rejection; the state left is the one `playerConnect` returned, which
it was handed with `numPlayers` already incremented. -/
theorem handleMessage_rejected_play (c : Collab) (fuel : Nat) (g g2 : GameInfo)
    (clientAddr : Addr) (message : String) (hcap : g.numPlayers ≤ MaxPlayers)
    (hplay : isPlay message = true)
    (hrej : c.playerConnect { g with numPlayers := g.numPlayers + 1 } (message.drop 5) clientAddr
      = (g2, none)) :
    handleMessage c fuel g clientAddr message
      = .ok (g2, [(clientAddr, "NO Max players reached\n")], false) := by
  have h1 : message ≠ "SPECTATE" := by
    rintro rfl
    revert hplay
    decide
  have hcap2 : ¬ g.numPlayers > MaxPlayers := by omega
  simp [handleMessage, hcap2, h1, hplay, connectNewPlayer, addNewPlayer, hrej]

/-- A KEY message other than `KEY Q` from a sender that `findPlayer` does not
know is a `NULL` dereference in `newMove`. -/
theorem handleMessage_key_unknown_sender (c : Collab) (fuel : Nat) (g : GameInfo)
    (clientAddr : Addr) (message : String) (hcap : g.numPlayers ≤ MaxPlayers)
    (hkey : isKey message = true) (hquit : message ≠ "KEY Q")
    (hnone : c.findPlayer g clientAddr = none) :
    handleMessage c fuel g clientAddr message = .fail .nullDeref := by
  have h1 := not_spectate_of_isKey message hkey
  have h2 := not_isPlay_of_isKey message hkey
  have hcap2 : ¬ g.numPlayers > MaxPlayers := by omega
  simp [handleMessage, hcap2, h1, h2, hquit, hkey, newMove, hnone, deref]

/-- A slide whose first step `movePlayer` reports invalid (result `0`) still
runs the visibility update and `sendMap` once before the loop ends. -/
theorem handleMessage_blocked_slide (c : Collab) (fuel : Nat) (g g2 : GameInfo)
    (clientAddr : Addr) (message : String) (p : Player) (dx dy : Int)
    (hcap : g.numPlayers ≤ MaxPlayers) (hkey : isKey message = true)
    (hquit : message ≠ "KEY Q") (hslide : isSlideKey (cAt message 4) = true)
    (hadm : c.findPlayer g clientAddr = some p)
    (hvec : keyVector (Char.ofNat ((cAt message 4).toNat + 32)) = some (dx, dy))
    (hmove : c.movePlayer { g with x := p.x + dx, y := p.y + dy, ID := p.L } = (g2, 0)) :
    handleMessage c (fuel + 1) g clientAddr message
      = (sendMap (applyVisibility c g2).map (applyVisibility c g2)).andThen
          (fun out => .ok (applyVisibility c g2, out, false)) := by
  have h1 := not_spectate_of_isKey message hkey
  have h2 := not_isPlay_of_isKey message hkey
  have hcap2 : ¬ g.numPlayers > MaxPlayers := by omega
  simp only [handleMessage, hcap2, h1, h2, hquit, hkey, newMove, hslide, if_true, if_false,
    Bool.false_eq_true, hadm, deref, bind_ok, slideLoop, newMoveStep, hvec, hmove, pure_eq_ok]
  cases hs : sendMap (applyVisibility c g2).map (applyVisibility c g2) with
  | fail e => simp [Outcome.andThen]
  | ok out => simp [Outcome.andThen]

/-! ## The claims -/

/-- Claim C1, settled on the slide path: in `lateGame` the last bag (7
nuggets, the whole remaining total) lies right of the player. The slide
`KEY L` picks it up, so the remaining total becomes 0, yet `handleMessage`
sends no GAMEOVER summary and returns `false`. The single step `KEY l` from
the same state sends the summary and returns `true`. -/
theorem slide_onto_last_gold_keeps_running :
    lateGame.totalGold = 7
    ∧ Outcome.andThen (handleMessage refCollab 4 lateGame 1 "KEY L").state
        (fun g => .ok g.totalGold) = .ok 0
    ∧ (handleMessage refCollab 4 lateGame 1 "KEY L").sent
        = .ok [(1, "GOLD 7 250 0"), (1, "DISPLAY\n............\n"),
               (1, "DISPLAY\n............\n"), (1, "DISPLAY\n............\n")]
    ∧ (handleMessage refCollab 4 lateGame 1 "KEY L").stop = .ok false
    ∧ (handleMessage refCollab 4 lateGame 1 "KEY l").sent
        = .ok [(1, "GOLD 7 250 0"), (1, "DISPLAY\n............\n"),
               (1, "GAMEOVER\n1. A bob 250\n")]
    ∧ (handleMessage refCollab 4 lateGame 1 "KEY l").stop = .ok true := by
  decide

/-- Claim C2, settled on a full roster: `fullSession` holds 26 players. The
PLAY request of a further client is answered with the NO rejection, and the
state it leaves differs from the state before: `numPlayers` is 27. -/
theorem rejected_play_increments_numPlayers :
    fullSession.numPlayers = 26
    ∧ fullSession.players.length = 26
    ∧ (refPlayerConnect { fullSession with numPlayers := 27 } "zed" 99).2 = none
    ∧ handleMessage refCollab 4 fullSession 99 "PLAY zed"
        = .ok ({ fullSession with numPlayers := 27 }, [(99, "NO Max players reached\n")], false)
    ∧ ({ fullSession with numPlayers := 27 } : GameInfo) ≠ fullSession := by
  decide

/-- Claim C3, settled by a run: from the initial session `hallStart`, where
`numPlayers` is 0, the PLAY requests of 27 clients lead to a state in which
`numPlayers` is 27, above `MaxPlayers`. -/
theorem numPlayers_exceeds_MaxPlayers :
    hallStart.numPlayers = 0
    ∧ Outcome.andThen (runMessages refCollab 4 hallStart (playRequests 27))
        (fun g => .ok g.numPlayers) = .ok 27
    ∧ MaxPlayers < 27 := by
  decide

/-- Claim C4, settled on a full roster: after the PLAY request of client 99
was rejected in `fullSession`, the messages `KEY l` and `SPECTATE` of the
admitted client 1 are answered with `NO Maximum players reached` and change
nothing, whereas without that PLAY request the same `KEY l` moves the player
and is followed by a map broadcast to the 26 players. -/
theorem rejected_play_blocks_admitted_players :
    (handleMessage refCollab 4 fullSession 99 "PLAY zed").state
        = .ok { fullSession with numPlayers := 27 }
    ∧ refFindPlayer fullSession 1 ≠ none
    ∧ handleMessage refCollab 4 { fullSession with numPlayers := 27 } 1 "KEY l"
        = .ok ({ fullSession with numPlayers := 27 },
               [(1, "NO Maximum players reached")], false)
    ∧ handleMessage refCollab 4 { fullSession with numPlayers := 27 } 1 "SPECTATE"
        = .ok ({ fullSession with numPlayers := 27 },
               [(1, "NO Maximum players reached")], false)
    ∧ (handleMessage refCollab 4 fullSession 1 "KEY l").sent
        = .ok ((List.range 26).map
            (fun i => (i + 1, "DISPLAY\n............................**********..\n")))
    ∧ fullSession.players.map (fun p => p.x) = (List.range 26).map (fun i => (i : Int))
    ∧ Outcome.andThen (handleMessage refCollab 4 fullSession 1 "KEY l").state
        (fun g => .ok (g.players.map (fun p => p.x)).head?) = .ok (some 1) := by
  refine ⟨by decide, by decide, by decide, by decide, by decide, by decide, by decide⟩

/-- Claim C6, settled with a spectator connected: in `watchedGame` client 2
is the spectator and client 1 an admitted player. The message `KEY Q` of
client 1 changes nothing and sends nothing: the player is not quit and no
map is broadcast. In `lateGame`, the same session without spectator, the
same message disconnects the player. -/
theorem player_quit_ignored_while_spectator_connected :
    watchedGame.spectator = { connected := true, clientAddr := 2 }
    ∧ refFindPlayer watchedGame 1 ≠ none
    ∧ handleMessage refCollab 4 watchedGame 1 "KEY Q" = .ok (watchedGame, [], false)
    ∧ watchedGame.players.map (fun p => p.connected) = [true]
    ∧ Outcome.andThen (handleMessage refCollab 4 lateGame 1 "KEY Q").state
        (fun g => .ok (g.players.map (fun p => p.connected))) = .ok [false] := by
  decide

/-- Claim C7, settled on two senders: in `watchedGame` no player has address
7 and client 2 is the spectator. The message `KEY h` from either of them
makes `newMove` use the `NULL` result of the player lookup. -/
theorem key_from_unknown_sender_faults :
    refFindPlayer watchedGame 7 = none
    ∧ handleMessage refCollab 4 watchedGame 7 "KEY h" = .fail .nullDeref
    ∧ watchedGame.spectator = { connected := true, clientAddr := 2 }
    ∧ handleMessage refCollab 4 watchedGame 2 "KEY h" = .fail .nullDeref := by
  decide

/-- Claim C8: for every session state within the player capacity and every
admitted player, a KEY message other than `KEY Q` that has a key character
(at index 4) which is none of the sixteen move keys is answered with `NO Invalid key` to the sender and with
nothing else (so with no DISPLAY and no GOLD message), leaves the state
unchanged and makes `handleMessage` return `false`. -/
theorem invalid_key_reply (c : Collab) (fuel : Nat) (g : GameInfo) (clientAddr : Addr)
    (message : String) (p : Player)
    (hcap : g.numPlayers ≤ MaxPlayers)
    (hadm : c.findPlayer g clientAddr = some p)
    (hkey : isKey message = true)
    (_hlen : 4 < message.length)
    (hquit : message ≠ "KEY Q")
    (hdir : cAt message 4 ∉ moveKeys) :
    handleMessage c fuel g clientAddr message
      = .ok (g, [(clientAddr, "NO Invalid key")], false) := by
  have h1 := not_spectate_of_isKey message hkey
  have h2 := not_isPlay_of_isKey message hkey
  have h3 := keyVector_none_of_not_moveKey _ hdir
  have h4 := isSlideKey_false_of_not_moveKey _ hdir
  have hcap2 : ¬ g.numPlayers > MaxPlayers := by omega
  simp [handleMessage, hcap2, h1, h2, hquit, hkey, newMove, newMoveStep, hadm, deref, h3, h4]

/-- Claim C8 on the message `KEY x` of the player of `lateGame`. -/
theorem invalid_key_reply_witness :
    refCollab.findPlayer lateGame 1 = lateGame.players.head?
    ∧ handleMessage refCollab 4 lateGame 1 "KEY x"
        = .ok (lateGame, [(1, "NO Invalid key")], false) :=
  ⟨by decide,
    invalid_key_reply refCollab 4 lateGame 1 "KEY x"
      { L := 'A', realname := "bob", x := 9, y := 0, numNugs := 243, connected := true,
        clientAddr := 1, grids := "..........*.\n" }
      (by decide) (by decide) (by decide) (by decide) (by decide) (by decide)⟩

/-- Claim C9, settled on a blocked slide: in `lateGame` the cell above the
player is outside the map, so the first step of the slide `KEY K` is
reported invalid (`movePlayer` returns 0); all the same a DISPLAY message is
sent to the player. The single step `KEY k` sends nothing. -/
theorem blocked_slide_broadcasts_map :
    (refMovePlayer { lateGame with x := 9, y := -1, ID := 'A' }).2 = 0
    ∧ (handleMessage refCollab 4 lateGame 1 "KEY K").sent
        = .ok [(1, "DISPLAY\n..........*.\n")]
    ∧ (handleMessage refCollab 4 lateGame 1 "KEY k").sent = .ok [] := by
  decide

/-- Claim C10: for every session state within the player capacity whose
roster and grid exist and in which a spectator is connected, a SPECTATE
message from an address that no roster player has is handled as follows:
the first message sent is QUIT to the previous spectator; of the messages
sent after it, those addressed to the new spectator are GRID, DISPLAY (the
whole grid) and GOLD, in that order; afterwards the spectator slot is
connected and holds the new address, and nothing else has changed. -/
theorem spectator_replaced (c : Collab) (fuel : Nat) (g : GameInfo) (clientAddr old : Addr)
    (grid : String)
    (hcap : g.numPlayers ≤ MaxPlayers)
    (hros : g.numPlayers ≤ g.players.length)
    (hgrid : g.map.grids = some grid)
    (hold : g.spectator = { connected := true, clientAddr := old })
    (hnew : ∀ p ∈ g.players.take g.numPlayers, p.clientAddr ≠ clientAddr) :
    ∃ rest,
      handleMessage c fuel g clientAddr "SPECTATE"
        = .ok ({ g with spectator := { connected := true, clientAddr := clientAddr } },
               (old, "QUIT") :: rest, false)
      ∧ rest.filter (fun s => decide (s.1 = clientAddr))
        = [(clientAddr, gridText g.map), (clientAddr, displayText grid),
           (clientAddr, goldText 0 0 g.totalGold)] := by
  have hcap2 : ¬ g.numPlayers > MaxPlayers := by omega
  have hD : List.filter (fun s : Send => decide (s.1 = clientAddr))
      (((g.players.take g.numPlayers).filter (fun p => p.connected)).map
        (fun p => (p.clientAddr, displayText p.grids))) = [] := by
    rw [List.filter_eq_nil_iff]
    intro s hs
    simp at hs
    obtain ⟨p, ⟨hp, _⟩, rfl⟩ := hs
    simpa using hnew p hp
  have hG : List.filter (fun s : Send => decide (s.1 = clientAddr))
      ((g.players.take g.numPlayers).filterMap (goldLine clientAddr 0 0 g.totalGold)) = [] := by
    rw [List.filter_eq_nil_iff]
    intro s hs
    simp at hs
    obtain ⟨p, hp, hl⟩ := hs
    have hne := hnew p hp
    simp [goldLine, hne] at hl
    obtain ⟨_, rfl⟩ := hl
    simpa using hne
  refine ⟨(clientAddr, gridText g.map) ::
      ((((g.players.take g.numPlayers).filter (fun p => p.connected)).map
          (fun p => (p.clientAddr, displayText p.grids)) ++ [(clientAddr, displayText grid)])
        ++ ((g.players.take g.numPlayers).filterMap (goldLine clientAddr 0 0 g.totalGold)
          ++ [(clientAddr, goldText 0 0 g.totalGold)])), ?_, ?_⟩
  · simp [handleMessage, hcap2, connectSpectator, sendMap, sendGoldInfo, firstPlayers, hros,
      hgrid, hold, deref]
  · simp [List.filter_cons, hD, hG]

/-- Claim C10 on `watchedGame`, where client 2 is the spectator, and a
SPECTATE message of client 3. -/
theorem spectator_replaced_witness :
    watchedGame.spectator = { connected := true, clientAddr := 2 }
    ∧ ∃ rest,
      handleMessage refCollab 4 watchedGame 3 "SPECTATE"
        = .ok ({ watchedGame with spectator := { connected := true, clientAddr := 3 } },
               (2, "QUIT") :: rest, false)
      ∧ rest.filter (fun s => decide (s.1 = 3))
        = [(3, gridText watchedGame.map), (3, displayText "..........*.\n"),
           (3, goldText 0 0 watchedGame.totalGold)] :=
  ⟨by decide,
    spectator_replaced refCollab 4 watchedGame 3 2 "..........*.\n"
      (by decide) (by decide) (by decide) (by decide) (by decide)⟩

/-! ## Lemmas on the recorded calls -/

theorem sendsOf_append (a b : List Event) : sendsOf (a ++ b) = sendsOf a ++ sendsOf b := by
  induction a with
  | nil => rfl
  | cons e a ih => cases e <;> simp [sendsOf, ih]

theorem newMoveStep_eq_events (c : Collab) (g : GameInfo) (a : Addr) (C : Char) :
    newMoveStep c g a C
      = (newMoveStepEvents c g a C).andThen (fun r => .ok (r.1, sendsOf r.2.1, r.2.2)) := by
  unfold newMoveStep newMoveStepEvents
  cases hf : deref (c.findPlayer g a) with
  | fail e => rfl
  | ok ptr =>
    cases hk : keyVector C with
    | none => simp [Outcome.andThen, sendsOf]
    | some v =>
      obtain ⟨dx, dy⟩ := v
      simp [Outcome.andThen, sendsOf]

theorem slideLoop_eq_events (c : Collab) (a : Addr) (C : Char) : ∀ (fuel : Nat) (g : GameInfo),
    slideLoop c fuel g a C
      = (slideEvents c fuel g a C).andThen (fun r => .ok (r.1, sendsOf r.2)) := by
  intro fuel
  induction fuel with
  | zero => intro g; rfl
  | succ fuel ih =>
    intro g
    unfold slideLoop slideEvents
    rw [newMoveStep_eq_events]
    cases hs : newMoveStepEvents c g a (Char.ofNat (C.toNat + 32)) with
    | fail e => rfl
    | ok r =>
      obtain ⟨g1, ev1, result⟩ := r
      by_cases hm : result = -1
      · simp [Outcome.andThen, hm]
      · by_cases h2 : result = 2
        · cases hp : pickUp c g1 a with
          | fail e => simp [Outcome.andThen, hm, h2, hp]
          | ok v =>
            obtain ⟨g2, out2⟩ := v
            cases hmap : sendMap (applyVisibility c g2).map (applyVisibility c g2) with
            | fail e => simp [Outcome.andThen, h2, hp, hmap]
            | ok out3 =>
              simp only [Outcome.andThen, h2, hp, hmap, bind_ok, pure_eq_ok, if_true, if_false,
                show ¬ ((2 : Int) = -1) by decide, show ((2 : Int) ≠ 0) by decide, ne_eq,
                not_false_eq_true, not_true_eq_false]
              rw [ih]
              cases slideEvents c fuel (applyVisibility c g2) a C with
              | fail e => rfl
              | ok w => simp [Outcome.andThen, sendsOf_append, sendsOf]
        · cases hmap : sendMap (applyVisibility c g1).map (applyVisibility c g1) with
          | fail e => simp [Outcome.andThen, hm, h2, hmap]
          | ok out3 =>
            by_cases h0 : result = 0
            · simp [Outcome.andThen, hm, h2, hmap, h0, sendsOf_append, sendsOf]
            · simp only [Outcome.andThen, hm, h2, hmap, h0, bind_ok, pure_eq_ok, if_true,
                if_false, ne_eq, not_false_eq_true]
              rw [ih]
              cases slideEvents c fuel (applyVisibility c g1) a C with
              | fail e => rfl
              | ok w => simp [Outcome.andThen, sendsOf_append, sendsOf]

theorem newMoveStepEvents_ok (c : Collab) (g g1 : GameInfo) (a : Addr) (C : Char)
    (ev1 : List Event) (result : Int)
    (h : newMoveStepEvents c g a C = .ok (g1, ev1, result)) :
    (keyVector C = none ∧ ev1 = [.reply [(a, "NO Invalid key")]] ∧ result = 0)
    ∨ (∃ ptr dx dy, c.findPlayer g a = some ptr ∧ keyVector C = some (dx, dy)
        ∧ ev1 = [.step ptr (ptr.x + dx) (ptr.y + dy) ptr.L result]) := by
  unfold newMoveStepEvents at h
  cases hf : c.findPlayer g a with
  | none => simp [hf, deref] at h
  | some ptr =>
    cases hk : keyVector C with
    | none =>
      simp [hf, deref, hk] at h
      exact Or.inl ⟨rfl, h.2.1.symm, h.2.2.symm⟩
    | some v =>
      obtain ⟨dx, dy⟩ := v
      simp [hf, deref, hk] at h
      exact Or.inr ⟨ptr, dx, dy, rfl, rfl, by rw [← h.2.1, h.2.2]⟩

theorem slideEvents_succ_ok (c : Collab) (fuel : Nat) (g g' : GameInfo) (a : Addr) (C : Char)
    (ev : List Event) (h : slideEvents c (fuel + 1) g a C = .ok (g', ev)) :
    ∃ g1 ev1 result, newMoveStepEvents c g a (Char.ofNat (C.toNat + 32)) = .ok (g1, ev1, result)
      ∧ ((result = -1 ∧ ev = ev1 ∧ g' = g1)
        ∨ (result = 0 ∧ g' = applyVisibility c g1
            ∧ ∃ out3, sendMap (applyVisibility c g1).map (applyVisibility c g1) = .ok out3
              ∧ ev = ev1 ++ [Event.visibility, Event.map out3])
        ∨ (result = 2 ∧ ∃ g2 out2 out3 ev4, pickUp c g1 a = .ok (g2, out2)
            ∧ sendMap (applyVisibility c g2).map (applyVisibility c g2) = .ok out3
            ∧ slideEvents c fuel (applyVisibility c g2) a C = .ok (g', ev4)
            ∧ ev = ev1 ++ [Event.gold out2, Event.visibility, Event.map out3] ++ ev4)
        ∨ (result ≠ -1 ∧ result ≠ 0 ∧ result ≠ 2 ∧ ∃ out3 ev4,
            sendMap (applyVisibility c g1).map (applyVisibility c g1) = .ok out3
            ∧ slideEvents c fuel (applyVisibility c g1) a C = .ok (g', ev4)
            ∧ ev = ev1 ++ [Event.visibility, Event.map out3] ++ ev4)) := by
  unfold slideEvents at h
  cases hs : newMoveStepEvents c g a (Char.ofNat (C.toNat + 32)) with
  | fail e => simp [hs] at h
  | ok r =>
    obtain ⟨g1, ev1, result⟩ := r
    refine ⟨g1, ev1, result, rfl, ?_⟩
    rw [hs] at h
    by_cases hm : result = -1
    · simp [hm] at h
      exact Or.inl ⟨hm, h.2.symm, h.1.symm⟩
    · by_cases h2 : result = 2
      · cases hp : pickUp c g1 a with
        | fail e => simp [h2, hp] at h
        | ok v =>
          obtain ⟨g2, out2⟩ := v
          cases hmap : sendMap (applyVisibility c g2).map (applyVisibility c g2) with
          | fail e => simp [h2, hp, hmap] at h
          | ok out3 =>
            cases hr : slideEvents c fuel (applyVisibility c g2) a C with
            | fail e => simp [h2, hp, hmap, hr] at h
            | ok w =>
              obtain ⟨g4, ev4⟩ := w
              simp [h2, hp, hmap, hr] at h
              refine Or.inr (Or.inr (Or.inl ⟨h2, g2, out2, out3, ev4, rfl, hmap, ?_, ?_⟩))
              · rw [hr, h.1]
              · rw [← h.2]; simp
      · cases hmap : sendMap (applyVisibility c g1).map (applyVisibility c g1) with
        | fail e => simp [hm, h2, hmap] at h
        | ok out3 =>
          by_cases h0 : result = 0
          · simp [hm, h2, hmap, h0] at h
            exact Or.inr (Or.inl ⟨h0, h.1.symm, out3, rfl, by rw [← h.2]⟩)
          · cases hr : slideEvents c fuel (applyVisibility c g1) a C with
            | fail e => simp [hm, h2, hmap, h0, hr] at h
            | ok w =>
              obtain ⟨g4, ev4⟩ := w
              simp [hm, h2, hmap, h0, hr] at h
              refine Or.inr (Or.inr (Or.inr ⟨hm, h0, h2, out3, ev4, rfl, ?_, ?_⟩))
              · rw [h.1]
              · rw [← h.2]; simp

theorem stepsBroadcast_cons_other (e : Event) (rest : List Event)
    (h : ∀ q x y L r, e ≠ .step q x y L r) : stepsBroadcast (e :: rest) = stepsBroadcast rest := by
  cases e with
  | step q x y L r => exact absurd rfl (h q x y L r)
  | gold o => rfl
  | visibility => rfl
  | map o => rfl
  | reply o => rfl

theorem slideEvents_pattern (c : Collab) (a : Addr) (C : Char) : ∀ (fuel : Nat)
    (g g' : GameInfo) (ev : List Event), slideEvents c fuel g a C = .ok (g', ev) →
    stepsBroadcast ev = true ∧ successfulSteps ev ≤ mapBroadcasts ev := by
  intro fuel
  induction fuel with
  | zero => intro g g' ev h; simp [slideEvents] at h
  | succ fuel ih =>
    intro g g' ev h
    obtain ⟨g1, ev1, result, hs, hcases⟩ := slideEvents_succ_ok c fuel g g' a C ev h
    rcases newMoveStepEvents_ok c g g1 a _ ev1 result hs with ⟨_, rfl, rfl⟩ | ⟨ptr, dx, dy, _, _, rfl⟩
    · rcases hcases with ⟨h1, _⟩ | ⟨_, _, out3, _, rfl⟩ | ⟨h1, _⟩ | ⟨_, h1, _⟩
      · exact absurd h1 (by decide)
      · simp [stepsBroadcast, successfulSteps, mapBroadcasts]
      · exact absurd h1 (by decide)
      · exact absurd rfl h1
    · rcases hcases with ⟨rfl, rfl, _⟩ | ⟨rfl, _, out3, _, rfl⟩
          | ⟨rfl, g2, out2, out3, ev4, _, _, hr, rfl⟩ | ⟨hm, h0, h2, out3, ev4, _, hr, rfl⟩
      · simp [stepsBroadcast, followedByBroadcast, successfulSteps, mapBroadcasts]
      · simp [stepsBroadcast, followedByBroadcast, successfulSteps, mapBroadcasts]
      · obtain ⟨hb, hc⟩ := ih _ g' ev4 hr
        simp [stepsBroadcast, followedByBroadcast, successfulSteps, mapBroadcasts, hb]
        omega
      · obtain ⟨hb, hc⟩ := ih _ g' ev4 hr
        simp [stepsBroadcast, followedByBroadcast, successfulSteps, mapBroadcasts, hb, h2]
        split <;> omega

theorem handleMessage_slide_eq (c : Collab) (fuel : Nat) (g : GameInfo) (a : Addr)
    (message : String) (p : Player)
    (hcap : g.numPlayers ≤ MaxPlayers) (hkey : isKey message = true)
    (hquit : message ≠ "KEY Q") (hslide : isSlideKey (cAt message 4) = true)
    (hadm : c.findPlayer g a = some p) :
    handleMessage c fuel g a message
      = (slideEvents c fuel g a (cAt message 4)).andThen
          (fun r => .ok (r.1, sendsOf r.2, false)) := by
  have h1 := not_spectate_of_isKey message hkey
  have h2 := not_isPlay_of_isKey message hkey
  have hcap2 : ¬ g.numPlayers > MaxPlayers := by omega
  simp only [handleMessage, hcap2, h1, h2, hquit, hkey, newMove, hslide, if_true, if_false,
    Bool.false_eq_true, hadm, deref, bind_ok]
  rw [slideLoop_eq_events]
  cases slideEvents c fuel g a (cAt message 4) with
  | fail e => rfl
  | ok r => simp [Outcome.andThen]

/-- Claim C19: for every slide (upper-case direction key) of an admitted
player that runs to its end with the calls `ev`, `handleMessage` returns
with exactly the messages of these calls; every `movePlayer` call reported
as moved, moved onto gold or moved onto a player is followed at once, before
the next `movePlayer` call, by the visibility update and the map broadcast,
and after a move onto gold the gold broadcast comes first; so the number of
map broadcasts is at least the number of successful steps. -/
theorem slide_steps_are_broadcast (c : Collab) (fuel : Nat) (g g' : GameInfo) (a : Addr)
    (message : String) (p : Player) (ev : List Event)
    (hcap : g.numPlayers ≤ MaxPlayers) (hkey : isKey message = true)
    (hquit : message ≠ "KEY Q") (hslide : isSlideKey (cAt message 4) = true)
    (hadm : c.findPlayer g a = some p)
    (hev : slideEvents c fuel g a (cAt message 4) = .ok (g', ev)) :
    handleMessage c fuel g a message = .ok (g', sendsOf ev, false)
      ∧ stepsBroadcast ev = true
      ∧ successfulSteps ev ≤ mapBroadcasts ev := by
  refine ⟨?_, slideEvents_pattern c a _ fuel g g' ev hev⟩
  rw [handleMessage_slide_eq c fuel g a message p hcap hkey hquit hslide hadm, hev]
  rfl

theorem slideEvents_vector (c : Collab) (a : Addr) (C : Char) (dx dy : Int)
    (hvec : keyVector (Char.ofNat (C.toNat + 32)) = some (dx, dy)) : ∀ (fuel : Nat)
    (g g' : GameInfo) (ev : List Event), slideEvents c fuel g a C = .ok (g', ev) →
    ∀ q x y L r, Event.step q x y L r ∈ ev → x = q.x + dx ∧ y = q.y + dy ∧ L = q.L := by
  intro fuel
  induction fuel with
  | zero => intro g g' ev h; simp [slideEvents] at h
  | succ fuel ih =>
    intro g g' ev h q x y L r hmem
    obtain ⟨g1, ev1, result, hs, hcases⟩ := slideEvents_succ_ok c fuel g g' a C ev h
    have hev1 : ∀ q x y L r, Event.step q x y L r ∈ ev1 →
        x = q.x + dx ∧ y = q.y + dy ∧ L = q.L := by
      intro q x y L r hm
      rcases newMoveStepEvents_ok c g g1 a _ ev1 result hs with ⟨hn, _, _⟩
        | ⟨ptr, dx2, dy2, _, hk, rfl⟩
      · rw [hn] at hvec; exact absurd hvec (by simp)
      · rw [hk] at hvec
        simp at hvec
        simp at hm
        obtain ⟨rfl, rfl, rfl, rfl, _⟩ := hm
        exact ⟨by rw [hvec.1], by rw [hvec.2], rfl⟩
    rcases hcases with ⟨_, rfl, _⟩ | ⟨_, _, out3, _, rfl⟩
        | ⟨_, g2, out2, out3, ev4, _, _, hr, rfl⟩ | ⟨_, _, _, out3, ev4, _, hr, rfl⟩
    · exact hev1 q x y L r hmem
    · simp at hmem
      exact hev1 q x y L r hmem
    · simp at hmem
      rcases hmem with hmem | hmem
      · exact hev1 q x y L r hmem
      · exact ih _ g' ev4 hr q x y L r hmem
    · simp at hmem
      rcases hmem with hmem | hmem
      · exact hev1 q x y L r hmem
      · exact ih _ g' ev4 hr q x y L r hmem

/-- Claim C20: for every admitted player `p` and every row
`(lower, upper, dx, dy)` of the direction table (h, l, k, j, y, u, b, n with
their vectors), `newMove` on the lower-case key hands `movePlayer` the cell
`(p.x + dx, p.y + dy)` and the letter of `p` and returns its state and
result, without sending anything; `newMove` on the upper-case key runs the
slide loop and returns 0, and every `movePlayer` call of that slide is handed
the cell of the mover found at that moment plus `(dx, dy)` and the mover's
letter. -/
theorem newMove_direction_vectors (c : Collab) (fuel : Nat) (g : GameInfo) (a : Addr)
    (p : Player) (lower upper : Char) (dx dy : Int)
    (hadm : c.findPlayer g a = some p)
    (hrow : (lower, upper, dx, dy) ∈ directionTable) :
    newMove c fuel g a lower
        = .ok ((c.movePlayer { g with x := p.x + dx, y := p.y + dy, ID := p.L }).1, [],
               (c.movePlayer { g with x := p.x + dx, y := p.y + dy, ID := p.L }).2)
      ∧ newMove c fuel g a upper
        = (slideEvents c fuel g a upper).andThen (fun r => .ok (r.1, sendsOf r.2, 0))
      ∧ ∀ (g0 g' : GameInfo) (ev : List Event), slideEvents c fuel g0 a upper = .ok (g', ev) →
          ∀ q x y L r, Event.step q x y L r ∈ ev → x = q.x + dx ∧ y = q.y + dy ∧ L = q.L := by
  have hkeys : keyVector lower = some (dx, dy) ∧ isSlideKey lower = false
      ∧ isSlideKey upper = true ∧ Char.ofNat (upper.toNat + 32) = lower := by
    simp only [directionTable, List.mem_cons, Prod.mk.injEq, List.mem_singleton,
      List.not_mem_nil, or_false] at hrow
    rcases hrow with h | h | h | h | h | h | h | h <;>
      (obtain ⟨rfl, rfl, rfl, rfl⟩ := h; decide)
  obtain ⟨hv, hl, hu, hc⟩ := hkeys
  refine ⟨?_, ?_, ?_⟩
  · simp [newMove, hadm, deref, hl, newMoveStep, hv]
  · simp only [newMove, hadm, deref, bind_ok, hu, if_true]
    rw [slideLoop_eq_events]
    cases slideEvents c fuel g a upper with
    | fail e => rfl
    | ok r => simp [Outcome.andThen]
  · intro g0 g' ev hev
    exact slideEvents_vector c a upper dx dy (by rw [hc]; exact hv) fuel g0 g' ev hev

/-! ## Lemmas on the broadcasts -/

theorem sentTo_append (x y : List Send) (a : Addr) :
    sentTo (x ++ y) a = sentTo x a ++ sentTo y a := by
  simp [sentTo]

theorem sentTo_filterMap_absent (ps : List Player) (f : Player → Option Send)
    (hf : ∀ p s, f p = some s → s.1 = p.clientAddr) (a : Addr)
    (ha : a ∉ ps.map (fun p => p.clientAddr)) : sentTo (ps.filterMap f) a = [] := by
  simp only [sentTo, List.map_eq_nil_iff, List.filter_eq_nil_iff]
  intro s hs
  simp only [List.mem_filterMap] at hs
  obtain ⟨p, hp, hfp⟩ := hs
  have := hf p s hfp
  simp only [decide_eq_true_eq]
  intro hsa
  apply ha
  simp only [List.mem_map]
  exact ⟨p, hp, by rw [← this, hsa]⟩

theorem sentTo_filterMap (f : Player → Option Send)
    (hf : ∀ p s, f p = some s → s.1 = p.clientAddr) : ∀ (ps : List Player),
    (ps.map (fun p => p.clientAddr)).Nodup → ∀ q ∈ ps,
    sentTo (ps.filterMap f) q.clientAddr = ((f q).map (fun s => s.2)).toList := by
  intro ps
  induction ps with
  | nil => intro _ q hq; simp at hq
  | cons p t ih =>
    intro hnd q hq
    simp only [List.map_cons, List.nodup_cons] at hnd
    obtain ⟨hp, ht⟩ := hnd
    rcases List.mem_cons.mp hq with rfl | hq
    · have hrest := sentTo_filterMap_absent t f hf q.clientAddr hp
      cases hfq : f q with
      | none => simp [List.filterMap_cons, hfq, hrest]
      | some s =>
        have hs := hf q s hfq
        have : sentTo (s :: t.filterMap f) q.clientAddr = s.2 :: sentTo (t.filterMap f) q.clientAddr := by
          simp [sentTo, hs]
        simp [List.filterMap_cons, hfq, this, hrest]
    · have hne : p.clientAddr ≠ q.clientAddr := by
        intro h
        apply hp
        simp only [List.mem_map]
        exact ⟨q, hq, h.symm⟩
      cases hfp : f p with
      | none => simpa [List.filterMap_cons, hfp] using ih ht q hq
      | some s =>
        have hs := hf p s hfp
        have : sentTo (s :: t.filterMap f) q.clientAddr = sentTo (t.filterMap f) q.clientAddr := by
          simp [sentTo, hs, hne]
        simpa [List.filterMap_cons, hfp, this] using ih ht q hq

theorem goldLine_addr (a : Addr) (n p r : Int) (pl : Player) (s : Send)
    (h : goldLine a n p r pl = some s) : s.1 = pl.clientAddr := by
  unfold goldLine at h
  split at h
  · rename_i ha
    simp at h
    rw [← h, ha]
  · split at h
    · simp at h
      rw [← h]
    · simp at h

/-- The loop of `sendMap` over the roster, written with one optional message
per player. -/
theorem filter_map_eq_filterMap (ps : List Player) (t : Player → String) :
    (ps.filter (fun p => p.connected)).map (fun p => (p.clientAddr, t p))
      = ps.filterMap (fun p => if p.connected then some (p.clientAddr, t p) else none) := by
  induction ps with
  | nil => rfl
  | cons p ps ih =>
    by_cases hc : p.connected = true
    · simp [List.filter_cons, List.filterMap_cons, hc, ih]
    · simp [List.filter_cons, List.filterMap_cons, hc, ih]

theorem mem_filterMap_addr (ps : List Player) (f : Player → Option Send)
    (hf : ∀ p s, f p = some s → s.1 = p.clientAddr) (s : Send) (hs : s ∈ ps.filterMap f) :
    s.1 ∈ ps.map (fun p => p.clientAddr) := by
  simp only [List.mem_filterMap] at hs
  obtain ⟨p, hp, hfp⟩ := hs
  simp only [List.mem_map]
  exact ⟨p, hp, (hf p s hfp).symm⟩

/-- Claim C11: for every session state whose roster exists and whose clients
have distinct addresses, every acting address `a`, picked-up bag `gb` and
purse value `p`, `sendGoldInfo` returns and, with `r` the remaining total
`totalGold`: the roster player with the acting address is sent exactly one
message, `GOLD n p r` with `n` the nuggets of the bag; every other roster
player is sent exactly one message, `GOLD 0 <own purse> r`, when connected and
none when disconnected; a connected spectator is sent exactly `GOLD 0 0 r`;
nothing is sent to anyone else. -/
theorem sendGoldInfo_recipients (g : GameInfo) (a : Addr) (gb : GoldBag) (p : Int)
    (hros : g.numPlayers ≤ g.players.length)
    (hnd : (rosterAddrs g).Nodup)
    (hspec : g.spectator.connected = true → g.spectator.clientAddr ∉ rosterAddrs g) :
    ∃ out, sendGoldInfo a (some gb) g p = .ok out
      ∧ (∀ q ∈ g.players.take g.numPlayers, sentTo out q.clientAddr
          = if q.clientAddr = a then [goldText gb.numNugs p g.totalGold]
            else if q.connected then [goldText 0 q.numNugs g.totalGold] else [])
      ∧ (g.spectator.connected = true →
          sentTo out g.spectator.clientAddr = [goldText 0 0 g.totalGold])
      ∧ (∀ s ∈ out, s.1 ∈ rosterAddrs g
          ∨ (g.spectator.connected = true ∧ s.1 = g.spectator.clientAddr)) := by
  have hf := goldLine_addr a gb.numNugs p g.totalGold
  have hplayers : ∀ q ∈ g.players.take g.numPlayers,
      sentTo ((g.players.take g.numPlayers).filterMap (goldLine a gb.numNugs p g.totalGold))
        q.clientAddr
        = if q.clientAddr = a then [goldText gb.numNugs p g.totalGold]
          else if q.connected then [goldText 0 q.numNugs g.totalGold] else [] := by
    intro q hq
    rw [sentTo_filterMap _ hf _ hnd q hq]
    unfold goldLine
    split
    · rfl
    · split <;> rfl
  by_cases hc : g.spectator.connected = true
  · refine ⟨(g.players.take g.numPlayers).filterMap (goldLine a gb.numNugs p g.totalGold)
        ++ [(g.spectator.clientAddr, goldText 0 0 g.totalGold)], ?_, ?_, ?_, ?_⟩
    · simp [sendGoldInfo, firstPlayers, hros, hc]
    · intro q hq
      have hne : g.spectator.clientAddr ≠ q.clientAddr := by
        intro h
        apply hspec hc
        simp only [rosterAddrs, List.mem_map]
        exact ⟨q, hq, h.symm⟩
      rw [sentTo_append, hplayers q hq]
      simp [sentTo, hne]
    · intro _
      rw [sentTo_append, sentTo_filterMap_absent _ _ hf _ (hspec hc)]
      simp [sentTo]
    · intro s hs
      rcases List.mem_append.mp hs with hs | hs
      · exact Or.inl (mem_filterMap_addr _ _ hf s hs)
      · simp at hs
        exact Or.inr ⟨hc, by rw [hs]⟩
  · refine ⟨(g.players.take g.numPlayers).filterMap (goldLine a gb.numNugs p g.totalGold),
      ?_, hplayers, fun h => absurd h hc, ?_⟩
    · simp [sendGoldInfo, firstPlayers, hros, hc]
    · intro s hs
      exact Or.inl (mem_filterMap_addr _ _ hf s hs)

/-- Claim C12: for every session state with a non-null authoritative grid
whose roster exists and whose clients have distinct addresses, `sendMap`
returns and: every connected roster player is sent exactly one message, the
DISPLAY of that player's own grid; a disconnected roster player is sent
nothing; a connected spectator is sent exactly one message, the DISPLAY of
the whole grid; nothing is sent to anyone else (so nothing to the spectator
address when no spectator is connected). -/
theorem sendMap_recipients (g : GameInfo) (grid : String)
    (hgrid : g.map.grids = some grid)
    (hros : g.numPlayers ≤ g.players.length)
    (hnd : (rosterAddrs g).Nodup)
    (hspec : g.spectator.connected = true → g.spectator.clientAddr ∉ rosterAddrs g) :
    ∃ out, sendMap g.map g = .ok out
      ∧ (∀ q ∈ g.players.take g.numPlayers, sentTo out q.clientAddr
          = if q.connected then [displayText q.grids] else [])
      ∧ (g.spectator.connected = true →
          sentTo out g.spectator.clientAddr = [displayText grid])
      ∧ (∀ s ∈ out, s.1 ∈ rosterAddrs g
          ∨ (g.spectator.connected = true ∧ s.1 = g.spectator.clientAddr)) := by
  have hf : ∀ (p : Player) (s : Send),
      (if p.connected then some (p.clientAddr, displayText p.grids) else none) = some s →
        s.1 = p.clientAddr := by
    intro p s h
    split at h
    · simp at h
      rw [← h]
    · simp at h
  have hplayers : ∀ q ∈ g.players.take g.numPlayers,
      sentTo (((g.players.take g.numPlayers).filter (fun p => p.connected)).map
          (fun p => (p.clientAddr, displayText p.grids))) q.clientAddr
        = if q.connected then [displayText q.grids] else [] := by
    intro q hq
    rw [filter_map_eq_filterMap, sentTo_filterMap _ hf _ hnd q hq]
    split <;> rfl
  by_cases hc : g.spectator.connected = true
  · refine ⟨((g.players.take g.numPlayers).filter (fun p => p.connected)).map
        (fun p => (p.clientAddr, displayText p.grids))
        ++ [(g.spectator.clientAddr, displayText grid)], ?_, ?_, ?_, ?_⟩
    · simp [sendMap, hgrid, firstPlayers, hros, hc, deref]
    · intro q hq
      have hne : g.spectator.clientAddr ≠ q.clientAddr := by
        intro h
        apply hspec hc
        simp only [rosterAddrs, List.mem_map]
        exact ⟨q, hq, h.symm⟩
      rw [sentTo_append, hplayers q hq]
      simp [sentTo, hne]
    · intro _
      rw [sentTo_append, filter_map_eq_filterMap,
        sentTo_filterMap_absent _ _ hf _ (hspec hc)]
      simp [sentTo]
    · intro s hs
      rcases List.mem_append.mp hs with hs | hs
      · rw [filter_map_eq_filterMap] at hs
        exact Or.inl (mem_filterMap_addr _ _ hf s hs)
      · simp at hs
        exact Or.inr ⟨hc, by rw [hs]⟩
  · refine ⟨((g.players.take g.numPlayers).filter (fun p => p.connected)).map
        (fun p => (p.clientAddr, displayText p.grids)), ?_, hplayers, fun h => absurd h hc, ?_⟩
    · simp [sendMap, hgrid, firstPlayers, hros, hc]
    · intro s hs
      rw [filter_map_eq_filterMap] at hs
      exact Or.inl (mem_filterMap_addr _ _ hf s hs)

theorem summaryLines_eq (ps : List Player) : ∀ i : Nat,
    summaryLines i ps
      = ((ps.enumFrom i).map specLine).foldr (fun line rest => line ++ rest) "" := by
  induction ps with
  | nil => intro i; rfl
  | cons p ps ih =>
    intro i
    simp only [summaryLines, List.enumFrom_cons, List.map_cons, List.foldr_cons, ih (i + 1)]
    rfl

theorem summaryText_eq_spec (ranked : List Player) : summaryText ranked = specSummary ranked := by
  unfold summaryText specSummary
  rw [summaryLines_eq, List.enum_eq_enumFrom]

/-- For every roster of `numPlayers` players with distinct addresses, none of
whose lines is longer than its `temp`, `sendSummary` returns; the text it
builds is `GAMEOVER` and a newline followed by one line
`<rank>. <letter> <name> <purse>` for each roster player, disconnected ones
included, in ranked order with the ranks 1, ..., `numPlayers`; that text is
sent exactly once to every connected roster player and exactly once to a
connected spectator, and nothing is sent to a disconnected player or to
anyone else. -/
theorem sendSummary_text_and_recipients (g : GameInfo)
    (h : g.numPlayers = g.players.length)
    (hnd : (rosterAddrs g).Nodup)
    (hspec : g.spectator.connected = true → g.spectator.clientAddr ∉ rosterAddrs g)
    (hfit : overflowingLines (rankLoops g.numPlayers g.players) = []) :
    ∃ ranked out, sendSummary g g.numPlayers = .ok ({ g with players := ranked }, out)
      ∧ StableRanking g.players ranked
      ∧ ranked.length = g.numPlayers
      ∧ (∀ q ∈ ranked, sentTo out q.clientAddr
          = if q.connected then [specSummary ranked] else [])
      ∧ (g.spectator.connected = true →
          sentTo out g.spectator.clientAddr = [specSummary ranked])
      ∧ (∀ s ∈ out, s.1 ∈ rosterAddrs g
          ∨ (g.spectator.connected = true ∧ s.1 = g.spectator.clientAddr)) := by
  rw [h] at hfit
  have hlen := rankLoops_length g.players
  have hperm : (rankLoops g.players.length g.players).Perm g.players := by
    rw [rankLoops_eq]
    exact rankPlayers_perm _ _
  have hs : StableRanking g.players (rankLoops g.players.length g.players) := by
    rw [rankLoops_eq]
    exact ⟨rankPlayers_perm _ _, rankPlayers_sorted _, fun v => rankPlayers_filter v _ _⟩
  have htake : (rankLoops g.players.length g.players).take g.players.length
      = rankLoops g.players.length g.players := List.take_of_length_le (by omega)
  have hroster : rosterAddrs g = g.players.map (fun p => p.clientAddr) := by
    unfold rosterAddrs
    rw [h, List.take_of_length_le (le_refl _)]
  have hperm2 : ((rankLoops g.players.length g.players).map (fun p => p.clientAddr)).Perm
      (rosterAddrs g) := by
    rw [hroster]
    exact hperm.map _
  have hnd2 : ((rankLoops g.players.length g.players).map (fun p => p.clientAddr)).Nodup :=
    hperm2.nodup_iff.mpr hnd
  have hf : ∀ (p : Player) (s : Send),
      (if p.connected then
        some (p.clientAddr, summaryText (rankLoops g.players.length g.players))
       else none) = some s → s.1 = p.clientAddr := by
    intro p s h
    split at h
    · simp at h
      rw [← h]
    · simp at h
  have hplayers : ∀ q ∈ rankLoops g.players.length g.players,
      sentTo (((rankLoops g.players.length g.players).filter (fun p => p.connected)).map
          (fun p => (p.clientAddr, summaryText (rankLoops g.players.length g.players))))
        q.clientAddr
        = if q.connected then [specSummary (rankLoops g.players.length g.players)] else [] := by
    intro q hq
    rw [filter_map_eq_filterMap _ (fun _ => summaryText (rankLoops g.players.length g.players)),
      sentTo_filterMap _ hf _ hnd2 q hq, summaryText_eq_spec]
    split <;> rfl
  refine ⟨rankLoops g.players.length g.players, ?_⟩
  by_cases hc : g.spectator.connected = true
  · have hspec2 : g.spectator.clientAddr
        ∉ (rankLoops g.players.length g.players).map (fun p => p.clientAddr) :=
      fun hm => hspec hc (hperm2.mem_iff.mp hm)
    refine ⟨((rankLoops g.players.length g.players).filter (fun p => p.connected)).map
        (fun p => (p.clientAddr, summaryText (rankLoops g.players.length g.players)))
        ++ [(g.spectator.clientAddr, summaryText (rankLoops g.players.length g.players))],
      ?_, hs, by rw [hlen, h], ?_, ?_, ?_⟩
    · simp [sendSummary, firstPlayers, h, hc, htake, summaryFormat_eq, hfit]
    · intro q hq
      have hne : g.spectator.clientAddr ≠ q.clientAddr := by
        intro heq
        apply hspec2
        simp only [List.mem_map]
        exact ⟨q, hq, heq.symm⟩
      rw [sentTo_append, hplayers q hq]
      simp [sentTo, hne]
    · intro _
      rw [sentTo_append,
        filter_map_eq_filterMap _ (fun _ => summaryText (rankLoops g.players.length g.players)),
        sentTo_filterMap_absent _ _ hf _ hspec2, summaryText_eq_spec]
      simp [sentTo]
    · intro s hs
      rcases List.mem_append.mp hs with hs | hs
      · rw [filter_map_eq_filterMap _
          (fun _ => summaryText (rankLoops g.players.length g.players))] at hs
        exact Or.inl (hperm2.mem_iff.mp (mem_filterMap_addr _ _ hf s hs))
      · simp at hs
        exact Or.inr ⟨hc, by rw [hs]⟩
  · refine ⟨((rankLoops g.players.length g.players).filter (fun p => p.connected)).map
        (fun p => (p.clientAddr, summaryText (rankLoops g.players.length g.players))),
      ?_, hs, by rw [hlen, h], hplayers, fun h => absurd h hc, ?_⟩
    · simp [sendSummary, firstPlayers, h, hc, htake, summaryFormat_eq, hfit]
    · intro s hs
      rw [filter_map_eq_filterMap _
        (fun _ => summaryText (rankLoops g.players.length g.players))] at hs
      exact Or.inl (hperm2.mem_iff.mp (mem_filterMap_addr _ _ hf s hs))

/-! ## Lemmas on connecting -/

theorem sendMap_eq (g : GameInfo) (grid : String) (hgrid : g.map.grids = some grid)
    (hros : g.numPlayers ≤ g.players.length) :
    sendMap g.map g
      = .ok (((g.players.take g.numPlayers).filter (fun p => p.connected)).map
              (fun p => (p.clientAddr, displayText p.grids))
            ++ (if g.spectator.connected then [(g.spectator.clientAddr, displayText grid)]
                else [])) := by
  by_cases hc : g.spectator.connected = true
  · simp [sendMap, hgrid, firstPlayers, hros, hc, deref]
  · simp [sendMap, hgrid, firstPlayers, hros, hc]

theorem sendGoldInfo_eq (a : Addr) (gb : Option GoldBag) (g : GameInfo) (p n : Int)
    (hn : n = match gb with
      | some b => b.numNugs
      | none => 0)
    (hros : g.numPlayers ≤ g.players.length) :
    sendGoldInfo a gb g p
      = .ok ((g.players.take g.numPlayers).filterMap (goldLine a n p g.totalGold)
            ++ (if g.spectator.connected then [(g.spectator.clientAddr, goldText 0 0 g.totalGold)]
                else [])) := by
  subst hn
  by_cases hc : g.spectator.connected = true
  · simp [sendGoldInfo, firstPlayers, hros, hc]
  · simp [sendGoldInfo, firstPlayers, hros, hc]

theorem sentTo_displays (ps : List Player) (hnd : (ps.map (fun p => p.clientAddr)).Nodup)
    (q : Player) (hq : q ∈ ps) :
    sentTo ((ps.filter (fun p => p.connected)).map
        (fun p => (p.clientAddr, displayText p.grids))) q.clientAddr
      = if q.connected then [displayText q.grids] else [] := by
  have hf : ∀ (p : Player) (s : Send),
      (if p.connected then some (p.clientAddr, displayText p.grids) else none) = some s →
        s.1 = p.clientAddr := by
    intro p s h
    split at h
    · simp at h
      rw [← h]
    · simp at h
  rw [filter_map_eq_filterMap, sentTo_filterMap _ hf _ hnd q hq]
  split <;> rfl

theorem sentTo_goldLines (ps : List Player) (hnd : (ps.map (fun p => p.clientAddr)).Nodup)
    (a : Addr) (n p r : Int) (q : Player) (hq : q ∈ ps) :
    sentTo (ps.filterMap (goldLine a n p r)) q.clientAddr
      = if q.clientAddr = a then [goldText n p r]
        else if q.connected then [goldText 0 q.numNugs r] else [] := by
  rw [sentTo_filterMap _ (goldLine_addr a n p r) _ hnd q hq]
  unfold goldLine
  split
  · rfl
  · split <;> rfl

theorem isPlay_not_spectate (message : String) (h : isPlay message = true) :
    message ≠ "SPECTATE" := by
  rintro rfl
  revert h
  decide

theorem handleMessage_admitted_play (c : Collab) (fuel : Nat) (g g2 : GameInfo) (a : Addr)
    (message : String) (np : Player) (grid : String)
    (hcap : g.numPlayers ≤ MaxPlayers) (hplay : isPlay message = true)
    (hconn : c.playerConnect { g with numPlayers := g.numPlayers + 1 } (message.drop 5) a
      = (g2, some np))
    (hgrid : (applyVisibility c (c.randomizeOnePlayerLoc g2 a)).map.grids = some grid)
    (hros : (applyVisibility c (c.randomizeOnePlayerLoc g2 a)).numPlayers
      ≤ (applyVisibility c (c.randomizeOnePlayerLoc g2 a)).players.length) :
    handleMessage c fuel g a message
      = .ok (applyVisibility c (c.randomizeOnePlayerLoc g2 a),
          [(a, "OK " ++ String.singleton np.L), (a, gridText g2.map)]
            ++ ((((applyVisibility c (c.randomizeOnePlayerLoc g2 a)).players.take
                  (applyVisibility c (c.randomizeOnePlayerLoc g2 a)).numPlayers).filter
                    (fun p => p.connected)).map (fun p => (p.clientAddr, displayText p.grids))
              ++ (if (applyVisibility c (c.randomizeOnePlayerLoc g2 a)).spectator.connected then
                    [((applyVisibility c (c.randomizeOnePlayerLoc g2 a)).spectator.clientAddr,
                      displayText grid)]
                  else []))
            ++ (((applyVisibility c (c.randomizeOnePlayerLoc g2 a)).players.take
                  (applyVisibility c (c.randomizeOnePlayerLoc g2 a)).numPlayers).filterMap
                  (goldLine a 0 0 (applyVisibility c (c.randomizeOnePlayerLoc g2 a)).totalGold)
              ++ (if (applyVisibility c (c.randomizeOnePlayerLoc g2 a)).spectator.connected then
                    [((applyVisibility c (c.randomizeOnePlayerLoc g2 a)).spectator.clientAddr,
                      goldText 0 0
                        (applyVisibility c (c.randomizeOnePlayerLoc g2 a)).totalGold)]
                  else [])),
          false) := by
  have h1 := isPlay_not_spectate message hplay
  have hcap2 : ¬ g.numPlayers > MaxPlayers := by omega
  simp only [handleMessage, hcap2, h1, hplay, if_true, if_false, connectNewPlayer, addNewPlayer,
    hconn, bind_ok, pure_eq_ok]
  rw [sendMap_eq _ grid hgrid hros, sendGoldInfo_eq a none _ 0 0 rfl hros]
  simp

/-- For every session state within capacity and every PLAY message that is
admitted (`playerConnect` returns the player `np`), where `g3` is the state
once the player is placed and the visibility updated: if in `g3` the grid
and the roster exist, addresses are distinct, the sender is a connected
roster player `me` and is not the spectator, then `handleMessage` returns
and the messages addressed to the sender are, in this order,
`OK <letter of np>`, the GRID message of `gridText` (the row count and the
column count plus one), the DISPLAY of the sender's own grid and
`GOLD 0 0 <remaining gold>`. -/
theorem admitted_play_replies (c : Collab) (fuel : Nat) (g g2 g3 : GameInfo) (a : Addr)
    (message : String) (np me : Player) (grid : String)
    (hcap : g.numPlayers ≤ MaxPlayers) (hplay : isPlay message = true)
    (hconn : c.playerConnect { g with numPlayers := g.numPlayers + 1 } (message.drop 5) a
      = (g2, some np))
    (hplaced : applyVisibility c (c.randomizeOnePlayerLoc g2 a) = g3)
    (hgrid : g3.map.grids = some grid)
    (hros : g3.numPlayers ≤ g3.players.length)
    (hnd : (rosterAddrs g3).Nodup)
    (hme : me ∈ g3.players.take g3.numPlayers)
    (haddr : me.clientAddr = a) (hmec : me.connected = true)
    (hspec : g3.spectator.connected = true → g3.spectator.clientAddr ≠ a) :
    ∃ out, handleMessage c fuel g a message = .ok (g3, out, false)
      ∧ sentTo out a
        = ["OK " ++ String.singleton np.L, gridText g2.map, displayText me.grids,
           goldText 0 0 g3.totalGold] := by
  subst hplaced
  refine ⟨_, handleMessage_admitted_play c fuel g g2 a message np grid hcap hplay hconn hgrid hros,
    ?_⟩
  have hD := sentTo_displays _ hnd me hme
  have hG := sentTo_goldLines _ hnd a 0 0
    (applyVisibility c (c.randomizeOnePlayerLoc g2 a)).totalGold me hme
  rw [haddr] at hD hG
  simp only [sentTo_append, hD, hG, hmec, if_true]
  by_cases hc : (applyVisibility c (c.randomizeOnePlayerLoc g2 a)).spectator.connected = true
  · have hne := hspec hc
    simp [sentTo, hc, hne]
  · simp [sentTo, hc]

/-! ## Lemmas on the other messages -/

/-- Claim C15, amended: for every session state within capacity and every
inbound message that is not `SPECTATE`, does not start with `PLAY` and does
not start with `KEY`, `handleMessage` sends nothing, leaves the session
state unchanged and returns `false`. -/
theorem unrecognised_message_ignored (c : Collab) (fuel : Nat) (g : GameInfo) (a : Addr)
    (message : String)
    (hcap : g.numPlayers ≤ MaxPlayers)
    (hspectate : message ≠ "SPECTATE")
    (hplay : isPlay message = false)
    (hkey : isKey message = false) :
    handleMessage c fuel g a message = .ok (g, [], false) := by
  have hcap2 : ¬ g.numPlayers > MaxPlayers := by omega
  have hquit : message ≠ "KEY Q" := by
    rintro rfl
    revert hkey
    decide
  simp [handleMessage, hcap2, hspectate, hplay, hquit, hkey]

theorem gridInit_dims (g0 : GameInfo) (raw : String) (col row : Int)
    (hraw : g0.mapRaw.grids = some raw) (hscan : getColRow raw 0 0 = some (col, row)) :
    ∃ g1, gridInit g0 = some g1 ∧ g1.map.nR = row ∧ g1.map.nC = col
      ∧ g1.mapRaw.nR = row ∧ g1.mapRaw.nC = col := by
  refine ⟨{ g0 with map := { g0.map with nR := row, nC := col },
                     mapRaw := { g0.mapRaw with nR := row, nC := col } }, ?_, rfl, rfl, rfl, rfl⟩
  simp only [gridInit, hraw, hscan, Option.bind_eq_bind, Option.some_bind]

theorem handleMessage_spectate_eq (c : Collab) (fuel : Nat) (g : GameInfo) (a : Addr)
    (grid : String) (hcap : g.numPlayers ≤ MaxPlayers)
    (hros : g.numPlayers ≤ g.players.length) (hgrid : g.map.grids = some grid) :
    handleMessage c fuel g a "SPECTATE"
      = .ok ({ g with spectator := { connected := true, clientAddr := a } },
          (if g.spectator.connected then [(g.spectator.clientAddr, "QUIT")] else [])
            ++ (a, gridText g.map)
              :: ((((g.players.take g.numPlayers).filter (fun p => p.connected)).map
                    (fun p => (p.clientAddr, displayText p.grids)) ++ [(a, displayText grid)])
                  ++ ((g.players.take g.numPlayers).filterMap (goldLine a 0 0 g.totalGold)
                    ++ [(a, goldText 0 0 g.totalGold)])),
          false) := by
  have hcap2 : ¬ g.numPlayers > MaxPlayers := by omega
  by_cases hc : g.spectator.connected = true
  · simp [handleMessage, hcap2, connectSpectator, sendMap, sendGoldInfo, firstPlayers, hros,
      hgrid, deref, hc]
  · simp [handleMessage, hcap2, connectSpectator, sendMap, sendGoldInfo, firstPlayers, hros,
      hgrid, deref, hc]

/-- Let `getColRow` compute `col` columns and `row` rows for the raw map
text, the values `gridInit` stores at start-up, and let the
state hold these dimensions. Then the GRID message sent to a new spectator,
between the QUIT for the old spectator and the DISPLAY and GOLD messages, and
the GRID message sent to a newly admitted player after `OK <letter>` are
both `GRID <row> <col + 1>`: the second number is the column count plus one. -/
theorem grid_message_dimensions (c : Collab) (fuel : Nat) (g g2 : GameInfo) (a : Addr)
    (raw grid message : String) (col row : Int) (np : Player)
    (hscan : getColRow raw 0 0 = some (col, row))
    (hrows : g.map.nR = row) (hcols : g.map.nC = col)
    (hcap : g.numPlayers ≤ MaxPlayers)
    (hros : g.numPlayers ≤ g.players.length) (hgrid : g.map.grids = some grid)
    (hconn : c.playerConnect { g with numPlayers := g.numPlayers + 1 } (message.drop 5) a
      = (g2, some np))
    (hmap : g2.map = g.map) :
    (∀ g0 : GameInfo, g0.mapRaw.grids = some raw →
        ∃ g1, gridInit g0 = some g1 ∧ g1.map.nR = row ∧ g1.map.nC = col)
      ∧ (∃ before rest, handleMessage c fuel g a "SPECTATE"
            = .ok ({ g with spectator := { connected := true, clientAddr := a } },
                before ++ (a, "GRID " ++ toString row ++ " " ++ toString (col + 1)) :: rest,
                false)
          ∧ (∀ s ∈ before, s.2 = "QUIT")
          ∧ ∀ s ∈ rest, ∃ t, s.2 = displayText t ∨ ∃ n p r, s.2 = goldText n p r)
      ∧ addNewPlayer c g message a
          = (g2, [(a, "OK " ++ String.singleton np.L),
                  (a, "GRID " ++ toString row ++ " " ++ toString (col + 1))], true) := by
  have htext : gridText g.map = "GRID " ++ toString row ++ " " ++ toString (col + 1) := by
    simp [gridText, hrows, hcols]
  refine ⟨?_, ?_, ?_⟩
  · intro g0 hraw
    obtain ⟨g1, h1, h2, h3, _⟩ := gridInit_dims g0 raw col row hraw hscan
    exact ⟨g1, h1, h2, h3⟩
  · refine ⟨if g.spectator.connected then [(g.spectator.clientAddr, "QUIT")] else [],
      (((g.players.take g.numPlayers).filter (fun p => p.connected)).map
          (fun p => (p.clientAddr, displayText p.grids)) ++ [(a, displayText grid)])
        ++ ((g.players.take g.numPlayers).filterMap (goldLine a 0 0 g.totalGold)
          ++ [(a, goldText 0 0 g.totalGold)]), ?_, ?_, ?_⟩
    · rw [handleMessage_spectate_eq c fuel g a grid hcap hros hgrid, htext]
    · intro s hs
      split at hs
      · simp at hs
        rw [hs]
      · simp at hs
    · intro s hs
      simp only [List.mem_append, List.mem_map, List.mem_filter, List.mem_singleton,
        List.mem_filterMap] at hs
      rcases hs with (⟨p, _, rfl⟩ | rfl) | (⟨p, _, hp⟩ | rfl)
      · exact ⟨p.grids, Or.inl rfl⟩
      · exact ⟨grid, Or.inl rfl⟩
      · refine ⟨"", Or.inr ?_⟩
        unfold goldLine at hp
        split at hp
        · simp at hp
          exact ⟨0, 0, g.totalGold, by rw [← hp]⟩
        · split at hp
          · simp at hp
            exact ⟨0, p.numNugs, g.totalGold, by rw [← hp]⟩
          · simp at hp
      · exact ⟨"", Or.inr ⟨0, 0, g.totalGold, rfl⟩⟩
  · simp [addNewPlayer, hconn, hmap, htext]

/-! ## Lemmas on the gold total -/

theorem applyVisibility_totalGold (c : Collab) (g : GameInfo) :
    (applyVisibility c g).totalGold = g.totalGold := rfl

theorem applyVisibility_numPlayers (c : Collab) (g : GameInfo) :
    (applyVisibility c g).numPlayers = g.numPlayers := rfl

theorem sendSummary_totalGold (g g' : GameInfo) (n : Nat) (out : List Send)
    (h : sendSummary g n = .ok (g', out)) : g'.totalGold = g.totalGold := by
  unfold sendSummary at h
  cases hf : firstPlayers g n with
  | fail e => simp [hf] at h
  | ok ps =>
    cases ht : formatLines (summarySize ((rankLoops n g.players).take n)) 0 "GAMEOVER\n"
        ((rankLoops n g.players).take n) with
    | fail e => simp [hf, ht] at h
    | ok text =>
      by_cases hc : g.spectator.connected = true
      · simp [hf, ht, hc] at h
        rw [← h.1]
      · simp [hf, ht, hc] at h
        rw [← h.1]

theorem isSlideKey_false_of_keyVector (C : Char) (v : Int × Int) (h : keyVector C = some v) :
    isSlideKey C = false := by
  unfold keyVector at h
  repeat' split at h
  all_goals first
    | (rename_i hc; subst hc; decide)
    | simp at h


theorem pickUp_ok (c : Collab) (g g' : GameInfo) (a : Addr) (out : List Send) (gb : GoldBag)
    (hbag : c.findGoldBag GoldMaxNumPiles g.x g.y g.goldBags = some gb)
    (h : pickUp c g a = .ok (g', out)) :
    g' = { g with totalGold := g.totalGold - gb.numNugs }
      ∧ ∃ ptr, c.findPlayer { g with totalGold := g.totalGold - gb.numNugs } a = some ptr
        ∧ sendGoldInfo a (some gb) { g with totalGold := g.totalGold - gb.numNugs } ptr.numNugs
            = .ok out := by
  unfold pickUp at h
  simp only [hbag, deref, bind_ok] at h
  cases hf : c.findPlayer { g with totalGold := g.totalGold - gb.numNugs } a with
  | none => simp [hf] at h
  | some ptr =>
    simp only [hf, bind_ok] at h
    cases hs : sendGoldInfo a (some gb) { g with totalGold := g.totalGold - gb.numNugs }
        ptr.numNugs with
    | fail e => simp [hs] at h
    | ok o =>
      simp [hs] at h
      exact ⟨h.1.symm, ptr, rfl, h.2 ▸ hs⟩

/-- Claim C13: let a move step of an admitted player with direction vector
`(dx, dy)` be reported by `movePlayer` with `result`, `movePlayer` leaving the
remaining total and the target cell as they are. Whether the step is the
single step of `handleMessage` or an iteration of the slide loop (every
iteration is the first iteration of `slideLoop` from the state then
reached): after the step the remaining total is the one before minus the
nuggets of the bag `gb` found at the mover's new cell when `result` is 2
(moved onto gold), and the messages sent start with those of
`sendGoldInfo` called with that bag and the reduced total (see C11 for what
they carry); for every other result the remaining total is unchanged. -/
theorem gold_step_accounting (c : Collab) (fuel : Nat) (g g2 g' gS : GameInfo) (a : Addr)
    (p : Player) (key K : Char) (message : String) (dx dy result : Int) (gb : GoldBag)
    (out outS : List Send) (stop : Bool)
    (hadm : c.findPlayer g a = some p)
    (hvec : keyVector key = some (dx, dy))
    (hmove : c.movePlayer { g with x := p.x + dx, y := p.y + dy, ID := p.L } = (g2, result))
    (htotal : g2.totalGold = g.totalGold) (hx : g2.x = p.x + dx) (hy : g2.y = p.y + dy)
    (hbag : result = 2 →
      c.findGoldBag GoldMaxNumPiles (p.x + dx) (p.y + dy) g2.goldBags = some gb)
    (hcap : g.numPlayers ≤ MaxPlayers) (hkey : isKey message = true)
    (hquit : message ≠ "KEY Q") (hmsg : cAt message 4 = key)
    (hK : Char.ofNat (K.toNat + 32) = key) :
    (handleMessage c fuel g a message = .ok (g', out, stop) →
        g'.totalGold = (if result = 2 then g.totalGold - gb.numNugs else g.totalGold)
        ∧ (result = 2 → ∃ (ptr : Player) (goldOut rest : List Send),
            sendGoldInfo a (some gb) { g2 with totalGold := g.totalGold - gb.numNugs }
                ptr.numNugs = .ok goldOut
            ∧ out = goldOut ++ rest))
      ∧ (slideLoop c (fuel + 1) g a K = .ok (gS, outS) →
          ∃ g3 rest,
            g3.totalGold = (if result = 2 then g.totalGold - gb.numNugs else g.totalGold)
            ∧ (result = 2 → ∃ (ptr : Player) (goldOut : List Send),
                sendGoldInfo a (some gb) { g2 with totalGold := g.totalGold - gb.numNugs }
                    ptr.numNugs = .ok goldOut
                ∧ outS = goldOut ++ rest)
            ∧ (result = -1 ∨ result = 0 → gS = g3)
            ∧ (result ≠ -1 → result ≠ 0 → ∃ out4, slideLoop c fuel g3 a K = .ok (gS, out4))) := by
  have h1 := not_spectate_of_isKey message hkey
  have h2 := not_isPlay_of_isKey message hkey
  have hcap2 : ¬ g.numPlayers > MaxPlayers := by omega
  have hns := isSlideKey_false_of_keyVector key _ hvec
  have hstep : newMoveStep c g a key = .ok (g2, [], result) := by
    simp [newMoveStep, hadm, deref, hvec, hmove]
  constructor
  · intro h
    simp only [handleMessage, hcap2, h1, h2, hquit, hkey, if_true, if_false, newMove, hadm,
      deref, bind_ok, hmsg, hns, Bool.false_eq_true, hstep] at h
    by_cases hr : result = 2
    · have hb := hbag hr
      rw [← hx, ← hy] at hb
      subst hr
      cases hp : pickUp c g2 a with
      | fail e => simp [hp] at h
      | ok v =>
        obtain ⟨g3, out2⟩ := v
        obtain ⟨hg3, ptr, _, hsend⟩ := pickUp_ok c g2 g3 a out2 gb hb hp
        rw [htotal] at hg3 hsend
        simp only [hp, if_true, bind_ok, show (2 : Int) > 0 by decide] at h
        cases hm : sendMap (applyVisibility c g3).map (applyVisibility c g3) with
        | fail e => simp [hm] at h
        | ok out3 =>
          simp only [hm, bind_ok] at h
          by_cases hz : (applyVisibility c g3).totalGold = 0
          · simp only [hz, if_true] at h
            cases hsum : sendSummary (applyVisibility c g3) (applyVisibility c g3).numPlayers with
            | fail e => simp [hsum] at h
            | ok w =>
              obtain ⟨g4, out4⟩ := w
              simp [hsum] at h
              have ht := sendSummary_totalGold _ _ _ _ hsum
              refine ⟨?_, fun _ => ⟨ptr, out2, out3 ++ out4, hsend, ?_⟩⟩
              · rw [← h.1, ht, applyVisibility_totalGold, hg3]
                simp
              · rw [← h.2.1]
          · simp [hz] at h
            refine ⟨?_, fun _ => ⟨ptr, out2, out3, hsend, ?_⟩⟩
            · rw [← h.1, applyVisibility_totalGold, hg3]
              simp
            · rw [← h.2.1]
    · simp only [hr, if_false, bind_ok, pure_eq_ok] at h
      refine ⟨?_, fun h2 => absurd h2 hr⟩
      by_cases hpos : result > 0
      · simp only [hpos, if_true] at h
        cases hm : sendMap (applyVisibility c g2).map (applyVisibility c g2) with
        | fail e => simp [hm] at h
        | ok out3 =>
          simp only [hm, bind_ok] at h
          by_cases hz : (applyVisibility c g2).totalGold = 0
          · simp only [hz, if_true] at h
            cases hsum : sendSummary (applyVisibility c g2) (applyVisibility c g2).numPlayers with
            | fail e => simp [hsum] at h
            | ok w =>
              obtain ⟨g4, out4⟩ := w
              simp [hsum] at h
              have ht := sendSummary_totalGold _ _ _ _ hsum
              rw [← h.1, ht, applyVisibility_totalGold, htotal]
              simp [hr]
          · simp [hz] at h
            rw [← h.1, applyVisibility_totalGold, htotal]
            simp [hr]
      · simp [hpos] at h
        rw [← h.1, htotal]
        simp [hr]
  · intro h
    unfold slideLoop at h
    rw [hK, hstep] at h
    simp only [bind_ok] at h
    by_cases hm1 : result = -1
    · simp [hm1] at h
      refine ⟨g2, [], ?_, ?_, fun _ => h.1.symm, fun hne => absurd hm1 hne⟩
      · rw [htotal]
        simp [hm1]
      · intro h2
        rw [hm1] at h2
        exact absurd h2 (by decide)
    · simp only [hm1, if_false] at h
      by_cases hr : result = 2
      · have hb := hbag hr
        rw [← hx, ← hy] at hb
        subst hr
        cases hp : pickUp c g2 a with
        | fail e => simp [hp] at h
        | ok v =>
          obtain ⟨g3, out2⟩ := v
          obtain ⟨hg3, ptr, _, hsend⟩ := pickUp_ok c g2 g3 a out2 gb hb hp
          rw [htotal] at hg3 hsend
          simp only [hp, if_true, bind_ok] at h
          cases hm : sendMap (applyVisibility c g3).map (applyVisibility c g3) with
          | fail e => simp [hm] at h
          | ok out3 =>
            simp only [hm, bind_ok, show (2 : Int) ≠ 0 by decide, ne_eq, not_false_eq_true,
              if_true] at h
            cases hrest : slideLoop c fuel (applyVisibility c g3) a K with
            | fail e => simp [hrest] at h
            | ok w =>
              obtain ⟨g4, out4⟩ := w
              simp [hrest] at h
              refine ⟨applyVisibility c g3, out3 ++ out4, ?_, fun _ => ⟨ptr, out2, hsend, ?_⟩,
                ?_, fun _ _ => ⟨out4, ?_⟩⟩
              · rw [applyVisibility_totalGold, hg3]
                simp
              · rw [← h.2]
              · intro hc
                rcases hc with hc | hc <;> exact absurd hc (by decide)
              · rw [hrest, h.1]
      · simp only [hr, if_false, bind_ok, pure_eq_ok] at h
        cases hm : sendMap (applyVisibility c g2).map (applyVisibility c g2) with
        | fail e => simp [hm] at h
        | ok out3 =>
          simp only [hm, bind_ok] at h
          by_cases h0 : result = 0
          · simp [h0] at h
            refine ⟨applyVisibility c g2, out3, ?_, fun h2 => absurd h2 hr, fun _ => h.1.symm,
              fun _ hne => absurd h0 hne⟩
            rw [applyVisibility_totalGold, htotal]
            simp [hr]
          · simp only [h0, ne_eq, not_false_eq_true, if_true] at h
            cases hrest : slideLoop c fuel (applyVisibility c g2) a K with
            | fail e => simp [hrest] at h
            | ok w =>
              obtain ⟨g4, out4⟩ := w
              simp [hrest] at h
              refine ⟨applyVisibility c g2, out3 ++ out4, ?_, fun h2 => absurd h2 hr, ?_,
                fun _ _ => ⟨out4, ?_⟩⟩
              · rw [applyVisibility_totalGold, htotal]
                simp [hr]
              · intro hc
                rcases hc with hc | hc
                · exact absurd hc hm1
                · exact absurd hc h0
              · rw [hrest, h.1]

/-! ## Lemmas on the return value -/

/-- Whenever `handleMessage` returns `true`, the remaining gold total is zero
after handling, and the message was a single-step KEY message
of an admitted player within capacity whose move `movePlayer` reported with a
positive result: not SPECTATE, not PLAY, not `KEY Q`, not a key that
`newMove` rejects, not a slide, not an invalid move (result 0 or less) and
not an unrecognised message. All of those never return `true`. -/
theorem stop_only_when_gold_is_gone (c : Collab) (fuel : Nat) (g g' : GameInfo) (a : Addr)
    (message : String) (out : List Send)
    (h : handleMessage c fuel g a message = .ok (g', out, true)) :
    g'.totalGold = 0
      ∧ g.numPlayers ≤ MaxPlayers
      ∧ message ≠ "SPECTATE" ∧ isPlay message = false ∧ message ≠ "KEY Q"
      ∧ isKey message = true ∧ isSlideKey (cAt message 4) = false
      ∧ ∃ p dx dy, c.findPlayer g a = some p ∧ keyVector (cAt message 4) = some (dx, dy)
          ∧ 0 < (c.movePlayer { g with x := p.x + dx, y := p.y + dy, ID := p.L }).2 := by
  unfold handleMessage at h
  by_cases hcap : g.numPlayers > MaxPlayers
  · simp [hcap] at h
  simp only [hcap, if_false] at h
  by_cases hs : message = "SPECTATE"
  · simp only [hs, if_true] at h
    cases hc : connectSpectator g a with
    | fail e => simp [hc] at h
    | ok v => simp [hc] at h
  simp only [hs, if_false] at h
  by_cases hp : isPlay message = true
  · simp only [hp, if_true] at h
    cases hc : connectNewPlayer c g message a with
    | fail e => simp [hc] at h
    | ok v => simp [hc] at h
  simp only [hp, if_false, Bool.false_eq_true] at h
  by_cases hq : message = "KEY Q"
  · simp only [hq, if_true] at h
    by_cases hsc : g.spectator.connected = true
    · by_cases hsa : g.spectator.clientAddr = a
      · simp [hsc, hsa] at h
      · simp [hsc, hsa] at h
    · by_cases hf : (c.findPlayer g a).isSome = true
      · simp only [hsc, hf, if_true, if_false, Bool.false_eq_true] at h
        cases hm : sendMap (c.playerQuit g a).map (c.playerQuit g a) with
        | fail e => simp [hm] at h
        | ok v => simp [hm] at h
      · simp [hsc, hf] at h
  simp only [hq, if_false] at h
  by_cases hk : isKey message = true
  swap
  · simp [hk] at h
  simp only [hk, if_true] at h
  unfold newMove at h
  cases hf : c.findPlayer g a with
  | none => simp [hf, deref] at h
  | some p =>
    simp only [hf, deref, bind_ok] at h
    by_cases hsl : isSlideKey (cAt message 4) = true
    · simp only [hsl, if_true] at h
      cases hl : slideLoop c fuel g a (cAt message 4) with
      | fail e => simp [hl] at h
      | ok v => simp [hl] at h
    simp only [hsl, if_false, Bool.false_eq_true] at h
    unfold newMoveStep at h
    simp only [hf, deref, bind_ok] at h
    cases hv : keyVector (cAt message 4) with
    | none => simp [hv] at h
    | some v =>
      obtain ⟨dx, dy⟩ := v
      cases hmv : c.movePlayer { g with x := p.x + dx, y := p.y + dy, ID := p.L } with
      | mk g1 result =>
        simp only [hv, hmv, bind_ok, pure_eq_ok] at h
        cases hg : (if result = 2 then pickUp c g1 a else Outcome.ok (g1, [])) with
        | fail e =>
          by_cases h2 : result = 2
          · simp only [h2, if_true] at hg
            simp [h2, hg] at h
          · simp [h2] at hg
        | ok w =>
          obtain ⟨g2, out2⟩ := w
          by_cases hpos : result > 0
          swap
          · by_cases h2 : result = 2
            · omega
            · simp [h2, hpos] at h
          have htot : (applyVisibility c g2).totalGold = 0 ∧ g'.totalGold = 0 := by
            by_cases h2 : result = 2
            · simp only [h2, if_true] at hg
              simp only [h2, if_true, hg, bind_ok, show (2 : Int) > 0 by decide] at h
              cases hm : sendMap (applyVisibility c g2).map (applyVisibility c g2) with
              | fail e => simp [hm] at h
              | ok out3 =>
                simp only [hm, bind_ok] at h
                by_cases hz : (applyVisibility c g2).totalGold = 0
                · simp only [hz, if_true] at h
                  cases hsum : sendSummary (applyVisibility c g2)
                      (applyVisibility c g2).numPlayers with
                  | fail e => simp [hsum] at h
                  | ok s =>
                    obtain ⟨g4, out4⟩ := s
                    simp [hsum] at h
                    exact ⟨hz, by rw [← h.1, sendSummary_totalGold _ _ _ _ hsum, hz]⟩
                · simp [hz] at h
            · simp only [h2, if_false] at hg
              simp only [Outcome.ok.injEq, Prod.mk.injEq] at hg
              obtain ⟨rfl, rfl⟩ := hg
              simp only [h2, if_false, bind_ok, hpos, if_true] at h
              cases hm : sendMap (applyVisibility c g1).map (applyVisibility c g1) with
              | fail e => simp [hm] at h
              | ok out3 =>
                simp only [hm, bind_ok] at h
                by_cases hz : (applyVisibility c g1).totalGold = 0
                · simp only [hz, if_true] at h
                  cases hsum : sendSummary (applyVisibility c g1)
                      (applyVisibility c g1).numPlayers with
                  | fail e => simp [hsum] at h
                  | ok s =>
                    obtain ⟨g4, out4⟩ := s
                    simp [hsum] at h
                    exact ⟨hz, by rw [← h.1, sendSummary_totalGold _ _ _ _ hsum, hz]⟩
                · simp [hz] at h
          exact ⟨htot.2, by omega, hs, by simpa using hp, hq, hk, by simpa using hsl,
            p, dx, dy, rfl, rfl, by rw [hmv]; exact hpos⟩

/-! ## The claims on concrete sessions -/

/-- Claim C11 on `watchedPodium`: player 1 picks up the bag of 7 nuggets with
purse 107; player 3 is connected, player 2 is not, client 9 watches. -/
theorem sendGoldInfo_recipients_witness :
    (rosterAddrs watchedPodium).Nodup
    ∧ ∃ out, sendGoldInfo 1 (some lastBag) watchedPodium 107 = .ok out
      ∧ (∀ q ∈ watchedPodium.players.take watchedPodium.numPlayers, sentTo out q.clientAddr
          = if q.clientAddr = 1 then [goldText lastBag.numNugs 107 watchedPodium.totalGold]
            else if q.connected then [goldText 0 q.numNugs watchedPodium.totalGold] else [])
      ∧ (watchedPodium.spectator.connected = true →
          sentTo out watchedPodium.spectator.clientAddr
            = [goldText 0 0 watchedPodium.totalGold])
      ∧ (∀ s ∈ out, s.1 ∈ rosterAddrs watchedPodium
          ∨ (watchedPodium.spectator.connected = true
              ∧ s.1 = watchedPodium.spectator.clientAddr)) :=
  ⟨by decide,
    sendGoldInfo_recipients watchedPodium 1 lastBag 107 (by decide) (by decide) (by decide)⟩

/-- Claim C12 on `watchedPodium`. -/
theorem sendMap_recipients_witness :
    watchedPodium.map.grids = some "............\n"
    ∧ ∃ out, sendMap watchedPodium.map watchedPodium = .ok out
      ∧ (∀ q ∈ watchedPodium.players.take watchedPodium.numPlayers, sentTo out q.clientAddr
          = if q.connected then [displayText q.grids] else [])
      ∧ (watchedPodium.spectator.connected = true →
          sentTo out watchedPodium.spectator.clientAddr = [displayText "............\n"])
      ∧ (∀ s ∈ out, s.1 ∈ rosterAddrs watchedPodium
          ∨ (watchedPodium.spectator.connected = true
              ∧ s.1 = watchedPodium.spectator.clientAddr)) :=
  ⟨by decide,
    sendMap_recipients watchedPodium "............\n" (by decide) (by decide) (by decide)
      (by decide)⟩

/-- Claim C13 on `lateGame`: the step `KEY l` and the slide `KEY L` of client 1
both start with a move onto the last bag, of 7 nuggets. -/
theorem gold_step_accounting_witness :
    handleMessage refCollab 4 lateGame 1 "KEY l" = .ok (stepEnd.1, stepEnd.2.1, stepEnd.2.2)
    ∧ slideLoop refCollab (4 + 1) lateGame 1 'L' = .ok (slideEnd.1, slideEnd.2)
    ∧ (stepEnd.1.totalGold
          = (if (2 : Int) = 2 then lateGame.totalGold - lastBag.numNugs else lateGame.totalGold)
        ∧ ((2 : Int) = 2 → ∃ (ptr : Player) (goldOut rest : List Send),
            sendGoldInfo 1 (some lastBag)
                { onLastBag with totalGold := lateGame.totalGold - lastBag.numNugs }
                ptr.numNugs = .ok goldOut
            ∧ stepEnd.2.1 = goldOut ++ rest))
    ∧ ∃ g3 rest,
        g3.totalGold
          = (if (2 : Int) = 2 then lateGame.totalGold - lastBag.numNugs else lateGame.totalGold)
        ∧ ((2 : Int) = 2 → ∃ (ptr : Player) (goldOut : List Send),
            sendGoldInfo 1 (some lastBag)
                { onLastBag with totalGold := lateGame.totalGold - lastBag.numNugs }
                ptr.numNugs = .ok goldOut
            ∧ slideEnd.2 = goldOut ++ rest)
        ∧ ((2 : Int) = -1 ∨ (2 : Int) = 0 → slideEnd.1 = g3)
        ∧ ((2 : Int) ≠ -1 → (2 : Int) ≠ 0 →
            ∃ out4, slideLoop refCollab 4 g3 1 'L' = .ok (slideEnd.1, out4)) :=
  ⟨by decide, by decide,
    (gold_step_accounting refCollab 4 lateGame onLastBag stepEnd.1 slideEnd.1 1 bob 'l' 'L'
      "KEY l" 1 0 2 lastBag stepEnd.2.1 slideEnd.2 stepEnd.2.2
      (by decide) (by decide) (by decide) (by decide) (by decide) (by decide) (by decide)
      (by decide) (by decide) (by decide) (by decide) (by decide)).1 (by decide),
    (gold_step_accounting refCollab 4 lateGame onLastBag stepEnd.1 slideEnd.1 1 bob 'l' 'L'
      "KEY l" 1 0 2 lastBag stepEnd.2.1 slideEnd.2 stepEnd.2.2
      (by decide) (by decide) (by decide) (by decide) (by decide) (by decide) (by decide)
      (by decide) (by decide) (by decide) (by decide) (by decide)).2 (by decide)⟩

/-- The step `KEY l` of client 1 in `lateGame` collects the last gold and
makes `handleMessage` return `true`. -/
theorem stop_only_when_gold_is_gone_witness :
    handleMessage refCollab 4 lateGame 1 "KEY l" = .ok (stepEnd.1, stepEnd.2.1, true)
    ∧ stepEnd.1.totalGold = 0
    ∧ lateGame.numPlayers ≤ MaxPlayers
    ∧ "KEY l" ≠ "SPECTATE" ∧ isPlay "KEY l" = false ∧ "KEY l" ≠ "KEY Q"
    ∧ isKey "KEY l" = true ∧ isSlideKey (cAt "KEY l" 4) = false
    ∧ ∃ p dx dy, refCollab.findPlayer lateGame 1 = some p
        ∧ keyVector (cAt "KEY l" 4) = some (dx, dy)
        ∧ 0 < (refCollab.movePlayer
            { lateGame with x := p.x + dx, y := p.y + dy, ID := p.L }).2 :=
  ⟨by decide,
    stop_only_when_gold_is_gone refCollab 4 lateGame stepEnd.1 1 "KEY l" stepEnd.2.1
      (by decide)⟩

/-- Claim C15 as stated fails: in `lateGame`, below capacity, the message
`HELLO` of client 1 is none of SPECTATE, PLAY and KEY, and the server sends
no message at all in reply, so no NO rejection. -/
theorem unknown_message_gets_no_reply :
    lateGame.numPlayers < MaxPlayers
    ∧ "HELLO" ≠ "SPECTATE" ∧ isPlay "HELLO" = false ∧ isKey "HELLO" = false
    ∧ (handleMessage refCollab 4 lateGame 1 "HELLO").sent = .ok []
    ∧ ¬ ∃ reason, (1, "NO " ++ reason)
        ∈ (handleMessage refCollab 4 lateGame 1 "HELLO").sent.getD [] := by
  refine ⟨by decide, by decide, by decide, by decide, by decide, ?_⟩
  rintro ⟨reason, h⟩
  have : (handleMessage refCollab 4 lateGame 1 "HELLO").sent.getD [] = [] := by decide
  rw [this] at h
  simp at h

/-- Claim C15, amended, on the message `HELLO` of client 1 in `lateGame`. -/
theorem unrecognised_message_ignored_witness :
    lateGame.numPlayers ≤ MaxPlayers
    ∧ handleMessage refCollab 4 lateGame 1 "HELLO" = .ok (lateGame, [], false) :=
  ⟨by decide,
    unrecognised_message_ignored refCollab 4 lateGame 1 "HELLO" (by decide) (by decide)
      (by decide) (by decide)⟩

/-- The summary of `watchedPodium`, whose three lines fit. -/
theorem sendSummary_text_and_recipients_witness :
    watchedPodium.numPlayers = watchedPodium.players.length
    ∧ ∃ ranked out,
      sendSummary watchedPodium watchedPodium.numPlayers
          = .ok ({ watchedPodium with players := ranked }, out)
      ∧ StableRanking watchedPodium.players ranked
      ∧ ranked.length = watchedPodium.numPlayers
      ∧ (∀ q ∈ ranked, sentTo out q.clientAddr
          = if q.connected then [specSummary ranked] else [])
      ∧ (watchedPodium.spectator.connected = true →
          sentTo out watchedPodium.spectator.clientAddr = [specSummary ranked])
      ∧ (∀ s ∈ out, s.1 ∈ rosterAddrs watchedPodium
          ∨ (watchedPodium.spectator.connected = true
              ∧ s.1 = watchedPodium.spectator.clientAddr)) :=
  ⟨by decide,
    sendSummary_text_and_recipients watchedPodium (by decide) (by decide) (by decide)
      (by decide)⟩

/-- The replies to the PLAY request of client 1 in the initial session
`mineStart`. -/
theorem admitted_play_replies_witness :
    refCollab.playerConnect { mineStart with numPlayers := mineStart.numPlayers + 1 }
        ("PLAY bob".drop 5) 1
      = (connected1.1, some { bob with x := 0, numNugs := 0, grids := "" })
    ∧ ∃ out, handleMessage refCollab 4 mineStart 1 "PLAY bob" = .ok (joined, out, false)
      ∧ sentTo out 1
        = ["OK " ++ String.singleton 'A', gridText connected1.1.map,
           displayText ".**********.\n", goldText 0 0 joined.totalGold] :=
  ⟨by decide,
    admitted_play_replies refCollab 4 mineStart connected1.1 joined 1 "PLAY bob"
      { bob with x := 0, numNugs := 0, grids := "" }
      { bob with x := 0, numNugs := 0, grids := ".**********.\n" } ".**********.\n"
      (by decide) (by decide) (by decide) (by decide) (by decide) (by decide) (by decide)
      (by decide) (by decide) (by decide) (by decide)⟩

/-- Claim C18: the raw map of `lateGame` is one line of 12 characters,
`getColRow` computes 12 columns and 1 row and these are the dimensions in
the state, yet the GRID message sent to the new spectator 2 and the one sent
to the new player 1 of `mineStart` read `GRID 1 13`. -/
theorem grid_message_sends_columns_plus_one :
    lateGame.mapRaw.grids = some "............\n"
    ∧ getColRow "............\n" 0 0 = some (12, 1)
    ∧ gridInit lateGame = some lateGame
    ∧ sentTo ((handleMessage refCollab 4 lateGame 2 "SPECTATE").sent.getD []) 2
        = ["GRID 1 13", "DISPLAY\n..........*.\n", "GOLD 0 0 7"]
    ∧ gridInit mineStart = some mineStart
    ∧ sentTo ((handleMessage refCollab 4 mineStart 1 "PLAY bob").sent.getD []) 1
        = ["OK A", "GRID 1 13", "DISPLAY\n.**********.\n", "GOLD 0 0 250"]
    ∧ "GRID 1 13" ≠ "GRID 1 12" := by
  refine ⟨by decide, by decide, by decide, by decide, by decide, by decide, by decide⟩

/-- The GRID messages of the initial session `mineStart` for client 1. -/
theorem grid_message_dimensions_witness :
    getColRow "............\n" 0 0 = some (12, 1)
    ∧ (∀ g0 : GameInfo, g0.mapRaw.grids = some "............\n" →
        ∃ g1, gridInit g0 = some g1 ∧ g1.map.nR = 1 ∧ g1.map.nC = 12)
    ∧ (∃ before rest, handleMessage refCollab 4 mineStart 1 "SPECTATE"
          = .ok ({ mineStart with spectator := { connected := true, clientAddr := 1 } },
              before ++ (1, "GRID " ++ toString (1 : Int) ++ " " ++ toString ((12 : Int) + 1))
                :: rest, false)
        ∧ (∀ s ∈ before, s.2 = "QUIT")
        ∧ ∀ s ∈ rest, ∃ t, s.2 = displayText t ∨ ∃ n p r, s.2 = goldText n p r)
    ∧ addNewPlayer refCollab mineStart "PLAY bob" 1
        = (connected1.1, [(1, "OK " ++ String.singleton 'A'),
            (1, "GRID " ++ toString (1 : Int) ++ " " ++ toString ((12 : Int) + 1))], true) :=
  ⟨by decide,
    grid_message_dimensions refCollab 4 mineStart connected1.1 1 "............\n"
      ".**********.\n" "PLAY bob" 12 1 { bob with x := 0, numNugs := 0, grids := "" }
      (by decide) (by decide) (by decide) (by decide) (by decide) (by decide) (by decide)
      (by decide)⟩

/-- Claim C19 on the slide `KEY L` of client 1 in `lateGame`: two successful
steps (onto gold, then onto floor) and a blocked third one. -/
theorem slide_steps_are_broadcast_witness :
    slideEvents refCollab 4 lateGame 1 (cAt "KEY L" 4) = .ok (slideTrace.1, slideTrace.2)
    ∧ successfulSteps slideTrace.2 = 2
    ∧ handleMessage refCollab 4 lateGame 1 "KEY L"
        = .ok (slideTrace.1, sendsOf slideTrace.2, false)
    ∧ stepsBroadcast slideTrace.2 = true
    ∧ successfulSteps slideTrace.2 ≤ mapBroadcasts slideTrace.2 :=
  ⟨by decide, by decide,
    slide_steps_are_broadcast refCollab 4 lateGame slideTrace.1 1 "KEY L" bob slideTrace.2
      (by decide) (by decide) (by decide) (by decide) (by decide) (by decide)⟩

/-- Claim C20 on the keys `l` and `L` of client 1 in `lateGame`. -/
theorem newMove_direction_vectors_witness :
    ('l', 'L', (1 : Int), (0 : Int)) ∈ directionTable
    ∧ newMove refCollab 4 lateGame 1 'l'
        = .ok ((refCollab.movePlayer
                { lateGame with x := bob.x + 1, y := bob.y + 0, ID := bob.L }).1, [],
               (refCollab.movePlayer
                { lateGame with x := bob.x + 1, y := bob.y + 0, ID := bob.L }).2)
    ∧ newMove refCollab 4 lateGame 1 'L'
        = (slideEvents refCollab 4 lateGame 1 'L').andThen
            (fun r => .ok (r.1, sendsOf r.2, 0))
    ∧ ∀ (g0 g' : GameInfo) (ev : List Event),
        slideEvents refCollab 4 g0 1 'L' = .ok (g', ev) →
        ∀ q x y L r, Event.step q x y L r ∈ ev → x = q.x + 1 ∧ y = q.y + 0 ∧ L = q.L :=
  ⟨by decide,
    newMove_direction_vectors refCollab 4 lateGame 1 bob 'l' 'L' 1 0 (by decide) (by decide)⟩


/-! ## Lemmas on `getColRow` -/

theorem getColRowLoop_line (l : List Char) (hl : Char.ofNat 10 ∉ l) :
    ∀ (inLine done : Bool) (col row : Int) (rest : List Char),
      getColRowLoop inLine done col row (l ++ Char.ofNat 10 :: rest)
        = getColRowLoop false true (if done then col else col + l.length) (row + 1) rest := by
  induction l with
  | nil =>
    intro inLine done col row rest
    cases done <;> simp [getColRowLoop]
  | cons ch l ih =>
    intro inLine done col row rest
    have hne : ch ≠ Char.ofNat 10 := fun h => hl (by simp [h])
    have hl2 : Char.ofNat 10 ∉ l := fun h => hl (List.mem_cons_of_mem _ h)
    have hstep : getColRowLoop inLine done col row (ch :: (l ++ Char.ofNat 10 :: rest))
        = getColRowLoop true done (if done then col else col + 1) row
            (l ++ Char.ofNat 10 :: rest) := by
      simp [getColRowLoop, hne]
    rw [List.cons_append, hstep, ih hl2]
    cases done
    · simp only [Bool.false_eq_true, if_false, List.length_cons, Nat.cast_add, Nat.cast_one]
      congr 1
      omega
    · simp

theorem getColRowLoop_lines (lines : List (List Char))
    (h : ∀ l ∈ lines, Char.ofNat 10 ∉ l) : ∀ (col row : Int),
      getColRowLoop false true col row (lines.flatMap (fun l => l ++ [Char.ofNat 10]))
        = some (col, row + lines.length) := by
  induction lines with
  | nil => intro col row; simp [getColRowLoop]
  | cons l lines ih =>
    intro col row
    have hl : Char.ofNat 10 ∉ l := h l (List.mem_cons_self _ _)
    have ht : ∀ l ∈ lines, Char.ofNat 10 ∉ l := fun l hl => h l (List.mem_cons_of_mem _ hl)
    rw [List.flatMap_cons, List.append_assoc, List.singleton_append,
      getColRowLoop_line l hl, ih ht]
    simp only [if_true, List.length_cons, Nat.cast_add, Nat.cast_one]
    congr 2
    omega

/-- Claim C21: for every map text made of zero or more lines, each without a
newline inside and each followed by a newline, `getColRow` called with both
counters 0 returns (the scan ends at the terminator and never passes it),
with `row` the number of lines and `col` the number of characters of the
first line (0 when there is no line). -/
theorem getColRow_counts_lines (lines : List (List Char))
    (h : ∀ l ∈ lines, Char.ofNat 10 ∉ l) :
    getColRow (String.mk (lines.flatMap (fun l => l ++ [Char.ofNat 10]))) 0 0
      = some (((lines.head?.map (fun l => (l.length : Int))).getD 0), (lines.length : Int)) := by
  unfold getColRow
  cases lines with
  | nil => simp [getColRowLoop]
  | cons l lines =>
    have hl : Char.ofNat 10 ∉ l := h l (List.mem_cons_self _ _)
    have ht : ∀ l ∈ lines, Char.ofNat 10 ∉ l := fun l hl => h l (List.mem_cons_of_mem _ hl)
    show getColRowLoop false false 0 0
        ((l :: lines).flatMap (fun l => l ++ [Char.ofNat 10])) = _
    rw [List.flatMap_cons, List.append_assoc, List.singleton_append,
      getColRowLoop_line l hl, getColRowLoop_lines lines ht]
    simp only [Bool.false_eq_true, if_false, List.head?_cons, Option.map_some', Option.getD_some,
      List.length_cons, Nat.cast_add, Nat.cast_one]
    congr 2
    · omega
    · omega

/-- Claim C21 on a map of three lines, `ab`, the empty line and `c`. -/
theorem getColRow_counts_lines_witness :
    (∀ l ∈ [['a', 'b'], [], ['c']], Char.ofNat 10 ∉ l)
    ∧ getColRow "ab\n\nc\n" 0 0 = some (2, 3) :=
  ⟨by decide, getColRow_counts_lines [['a', 'b'], [], ['c']] (by decide)⟩

/-! ## Lemmas on `fraction::simp` -/

theorem wrapInt_le (x : Int) : wrapInt x ≤ INT_MAX := by
  unfold wrapInt INT_MAX
  omega

theorem wrapInt_of_isInt (x : Int) (h : isInt x) : wrapInt x = x := by
  unfold isInt INT_MAX at h
  unfold wrapInt
  omega

/-- With `end` equal to `INT_MAX` the test `i <= end` holds for every `int`,
so the loop never ends. -/
theorem simpLoop_end_INT_MAX : ∀ (fuel : Nat) (i : Int) (f : Fraction),
    i ≤ INT_MAX → simpLoop fuel i INT_MAX f = none := by
  intro fuel
  induction fuel with
  | zero => intro i f _; rfl
  | succ fuel ih =>
    intro i f hi
    unfold simpLoop
    rw [if_pos hi]
    split
    · rfl
    · split
      · exact ih 2 _ (by unfold INT_MAX; omega)
      · exact ih _ _ (wrapInt_le _)

/-- Claim C26: for every fraction whose numerator or denominator is less
than 2, `fraction::simp` returns at once (the loop test fails the first
time, whatever positive fuel is given) and leaves numerator and denominator
unchanged. -/
theorem simp_below_two_unchanged (f : Fraction) (fuel : Nat)
    (h : f.numerator < 2 ∨ f.denominator < 2) : f.simp (fuel + 1) = some f := by
  unfold Fraction.simp simpLoop
  have hend : ¬ ((2 : Int) ≤ if f.numerator > f.denominator then f.denominator else f.numerator) := by
    split <;> omega
  rw [if_neg hend]

/-- Claim C26 on the fractions -2/4 and 0/4, which stay unreduced. -/
theorem simp_below_two_unchanged_witness :
    (((-2 : Int) < 2 ∨ (4 : Int) < 2)
      ∧ Fraction.simp { numerator := -2, denominator := 4 } 1
          = some { numerator := -2, denominator := 4 })
    ∧ (((0 : Int) < 2 ∨ (4 : Int) < 2)
      ∧ Fraction.simp { numerator := 0, denominator := 4 } 1
          = some { numerator := 0, denominator := 4 }) :=
  ⟨⟨by decide, simp_below_two_unchanged { numerator := -2, denominator := 4 } 0 (by decide)⟩,
   ⟨by decide, simp_below_two_unchanged { numerator := 0, denominator := 4 } 0 (by decide)⟩⟩

/-- Claim C22: for the fraction 2147483647/2147483647, whose numerator and
denominator are positive `int`s, `fraction::simp` does not terminate: the
bound `end` is `INT_MAX`, the test `i <= end` holds for every `int`, and no
amount of fuel gives a result. -/
theorem simp_INT_MAX_runs_forever :
    (0 < INT_MAX ∧ isInt INT_MAX)
    ∧ ∀ fuel : Nat,
        Fraction.simp { numerator := INT_MAX, denominator := INT_MAX } fuel = none := by
  refine ⟨⟨by decide, by unfold isInt INT_MAX; omega⟩, ?_⟩
  intro fuel
  unfold Fraction.simp
  simp only [gt_iff_lt, lt_self_iff_false, if_false]
  exact simpLoop_end_INT_MAX fuel 2 _ (by unfold INT_MAX; omega)

/-- Below `INT_MAX` the loop of `fraction::simp` ends with the reduced
fraction: from any state of the loop in which no number from 2 up to `i`
(excluded) divides both terms. -/
theorem simpLoop_reduces (e : Int) (he : e < INT_MAX) : ∀ (M : Nat) (i a b : Int),
    a.toNat * (e.toNat + 2) + (e + 1 - i).toNat < M → 0 < a → 0 < b →
    a ≤ INT_MAX → b ≤ INT_MAX → 2 ≤ i → i ≤ e + 1 → (a ≤ e ∨ b ≤ e) →
    (∀ k : Int, 2 ≤ k → k < i → ¬ (k ∣ a ∧ k ∣ b)) →
    ∃ (fuel : Nat) (r : Fraction),
      simpLoop fuel i e { numerator := a, denominator := b } = some r
      ∧ a * r.denominator = r.numerator * b
      ∧ Int.gcd r.numerator r.denominator = 1 := by
  intro M
  induction M with
  | zero => intro i a b hM; omega
  | succ M ih =>
    intro i a b hM ha hb ha2 hb2 hi hie hmin hnd
    have hi0 : i ≠ 0 := by omega
    by_cases hle : i ≤ e
    · by_cases hdiv : i ∣ a ∧ i ∣ b
      · obtain ⟨⟨a1, rfl⟩, ⟨b1, rfl⟩⟩ := hdiv
        have ha1 : 0 < a1 := by
          by_contra hc
          have : i * a1 ≤ 0 := Int.mul_nonpos_of_nonneg_of_nonpos (by omega) (by omega)
          omega
        have hb1 : 0 < b1 := by
          by_contra hc
          have : i * b1 ≤ 0 := Int.mul_nonpos_of_nonneg_of_nonpos (by omega) (by omega)
          omega
        have ha1lt : 2 * a1 ≤ i * a1 := Int.mul_le_mul_of_nonneg_right hi (by omega)
        have hb1lt : 2 * b1 ≤ i * b1 := Int.mul_le_mul_of_nonneg_right hi (by omega)
        have hmeas : a1.toNat * (e.toNat + 2) + (e + 1 - 2).toNat < M := by
          have h1 : a1.toNat + 1 ≤ (i * a1).toNat := by omega
          have h2 : (a1.toNat + 1) * (e.toNat + 2) ≤ (i * a1).toNat * (e.toNat + 2) :=
            Nat.mul_le_mul_right _ h1
          rw [Nat.add_mul, Nat.one_mul] at h2
          generalize (i * a1).toNat * (e.toNat + 2) = Y at h2 hM
          generalize a1.toNat * (e.toNat + 2) = X at h2 ⊢
          omega
        obtain ⟨fuel, r, h1, h2, h3⟩ := ih 2 a1 b1 hmeas ha1 hb1 (by omega) (by omega)
          (by omega) (by omega) (by omega) (fun k hk hk2 => by omega)
        refine ⟨fuel + 1, r, ?_, ?_, h3⟩
        · unfold simpLoop
          have hc : (i * a1).tmod i = 0 ∧ (i * b1).tmod i = 0 := by
            constructor
            · rw [Int.tmod_eq_emod (by omega) (by omega)]
              exact Int.mul_emod_right _ _
            · rw [Int.tmod_eq_emod (by omega) (by omega)]
              exact Int.mul_emod_right _ _
          have hq1 : (i * a1).tdiv i = a1 := by
            rw [Int.tdiv_eq_ediv (by omega) (by omega)]
            exact Int.mul_ediv_cancel_left _ hi0
          have hq2 : (i * b1).tdiv i = b1 := by
            rw [Int.tdiv_eq_ediv (by omega) (by omega)]
            exact Int.mul_ediv_cancel_left _ hi0
          rw [if_pos hle, if_neg hi0, if_pos hc]
          simp only [hq1, hq2]
          rw [wrapInt_of_isInt a1 (by unfold isInt; unfold INT_MAX at *; omega),
            wrapInt_of_isInt b1 (by unfold isInt; unfold INT_MAX at *; omega)]
          exact h1
        · calc i * a1 * r.denominator = i * (a1 * r.denominator) := by ring
            _ = i * (r.numerator * b1) := by rw [h2]
            _ = r.numerator * (i * b1) := by ring
      · have hmeas : a.toNat * (e.toNat + 2) + (e + 1 - (i + 1)).toNat < M := by
          generalize a.toNat * (e.toNat + 2) = X at hM ⊢
          omega
        have hnd2 : ∀ k : Int, 2 ≤ k → k < i + 1 → ¬ (k ∣ a ∧ k ∣ b) := by
          intro k hk hk2
          by_cases hki : k = i
          · rw [hki]; exact hdiv
          · exact hnd k hk (by omega)
        obtain ⟨fuel, r, h1, h2, h3⟩ := ih (i + 1) a b hmeas ha hb ha2 hb2
          (by omega) (by omega) hmin hnd2
        refine ⟨fuel + 1, r, ?_, h2, h3⟩
        unfold simpLoop
        have hc : ¬ (a.tmod i = 0 ∧ b.tmod i = 0) := by
          intro hc
          rw [Int.tmod_eq_emod (by omega) (by omega),
            Int.tmod_eq_emod (by omega) (by omega)] at hc
          exact hdiv ⟨Int.dvd_of_emod_eq_zero hc.1, Int.dvd_of_emod_eq_zero hc.2⟩
        rw [if_pos hle, if_neg hi0, if_neg hc,
          wrapInt_of_isInt (i + 1) (by unfold isInt; unfold INT_MAX at *; omega)]
        exact h1
    · refine ⟨1, { numerator := a, denominator := b }, ?_, rfl, ?_⟩
      · unfold simpLoop
        rw [if_neg hle]
      · show Int.gcd a b = 1
        by_contra hg
        have hpos : 0 < Int.gcd a b := Int.gcd_pos_of_ne_zero_left b (by omega)
        have hga : ((Int.gcd a b : Nat) : Int) ∣ a := Int.gcd_dvd_left
        have hgb : ((Int.gcd a b : Nat) : Int) ∣ b := Int.gcd_dvd_right
        have hla : ((Int.gcd a b : Nat) : Int) ≤ a := Int.le_of_dvd ha hga
        have hlb : ((Int.gcd a b : Nat) : Int) ≤ b := Int.le_of_dvd hb hgb
        exact hnd (Int.gcd a b : Nat) (by omega) (by omega) ⟨hga, hgb⟩

/-- Every fraction of positive `int`s whose smaller term is below `INT_MAX`
is reduced by `fraction::simp`: it returns, the value is kept and the terms
of the result have greatest common divisor 1. -/
theorem simp_reduces_below_INT_MAX (n d : Int) (hn : 0 < n) (hd : 0 < d)
    (hn2 : n ≤ INT_MAX) (hd2 : d ≤ INT_MAX) (hmin : n < INT_MAX ∨ d < INT_MAX) :
    ∃ (fuel : Nat) (r : Fraction),
      Fraction.simp { numerator := n, denominator := d } fuel = some r
      ∧ n * r.denominator = r.numerator * d
      ∧ Int.gcd r.numerator r.denominator = 1 := by
  unfold Fraction.simp
  by_cases h : n > d
  · simp only [h, if_true]
    exact simpLoop_reduces d (by omega) _ 2 n d (Nat.lt_succ_self _) hn hd hn2 hd2
      (by omega) (by omega) (Or.inr (le_refl _)) (fun k hk hk2 => by omega)
  · simp only [h, if_false]
    exact simpLoop_reduces n (by omega) _ 2 n d (Nat.lt_succ_self _) hn hd hn2 hd2
      (by omega) (by omega) (Or.inl (le_refl _)) (fun k hk hk2 => by omega)

/-! ## Buffers of the summary -/

set_option maxRecDepth 4000

/-- Claim C23: in the hall with ten players (each named `p`, each with purse
0) the line of rank 10, `10. J p 0` and its newline, takes 11 bytes with its
terminator while `temp` is allocated 10 bytes: `sprintf` writes one byte
past the buffer. The lines of ranks 1 to 9 fit, and the whole message (101
bytes) fits its buffer of 110 bytes. -/
theorem summary_line_overflows_temp :
    tenJoined.players.length = 10
    ∧ (∀ p ∈ tenJoined.players, 0 ≤ p.numNugs)
    ∧ ((rankLoops 10 tenJoined.players)[9]?).map
          (fun p => (summaryLine 9 p, lineBytes 9 p, tempSize p))
        = some ("10. J p 0\n", 11, 10)
    ∧ overflowingLines (rankLoops 10 tenJoined.players) = [9]
    ∧ summaryBytes (rankLoops 10 tenJoined.players) = 101
    ∧ summarySize (rankLoops 10 tenJoined.players) = 110 := by
  refine ⟨by decide, by decide, by decide, by decide, by decide, by decide⟩

/-! ## Reads of the message -/

theorem cAt_lt_length (m : String) (i : Nat) (h : cAt m i ≠ Char.ofNat 0) : i < m.length := by
  by_contra hc
  apply h
  unfold cAt
  have hlen : m.toList.length ≤ i := Nat.le_of_not_lt hc
  exact List.getD_eq_default _ _ hlen

theorem playTestReads_within (m : String) : ∀ p ∈ playTestReads m, p ≤ m.length := by
  intro p hp
  unfold playTestReads at hp
  split at hp
  · next h0 =>
    have l0 := cAt_lt_length m 0 (by rw [h0]; decide)
    split at hp
    · next h1 =>
      have l1 := cAt_lt_length m 1 (by rw [h1]; decide)
      split at hp
      · next h2 =>
        have l2 := cAt_lt_length m 2 (by rw [h2]; decide)
        simp at hp
        omega
      · simp at hp
        omega
    · simp at hp
      omega
  · simp at hp
    omega

theorem keyTestReads_within (m : String) : ∀ p ∈ keyTestReads m, p ≤ m.length := by
  intro p hp
  unfold keyTestReads at hp
  split at hp
  · next h0 =>
    have l0 := cAt_lt_length m 0 (by rw [h0]; decide)
    split at hp
    · next h1 =>
      have l1 := cAt_lt_length m 1 (by rw [h1]; decide)
      simp at hp
      omega
    · simp at hp
      omega
  · simp at hp
    omega

/-- A message that has a character after `PLAY` (5 characters or more), or
one after `KEY` (4 or more), is read up to its terminator at most. -/
theorem readPositions_within (g : GameInfo) (m : String)
    (hplay : isPlay m = true → 5 ≤ m.length) (hkey : isKey m = true → 4 ≤ m.length) :
    ∀ p ∈ readPositions g m, p ≤ m.length := by
  intro p hp
  unfold readPositions at hp
  split at hp
  · simp at hp
  · split at hp
    · simp at hp
    · split at hp
      · next hpl =>
        rcases List.mem_append.1 hp with h | h
        · exact playTestReads_within m p h
        · unfold nameReads at h
          rw [if_pos (hplay hpl)] at h
          have := List.mem_range.1 (List.mem_of_mem_drop h)
          omega
      · split at hp
        · exact playTestReads_within m p hp
        · split at hp
          · next hk =>
            have := hkey hk
            rcases List.mem_append.1 hp with h | h
            · rcases List.mem_append.1 h with h | h
              · exact playTestReads_within m p h
              · exact keyTestReads_within m p h
            · simp at h
              omega
          · rcases List.mem_append.1 hp with h | h
            · exact playTestReads_within m p h
            · exact keyTestReads_within m p h

/-- Claim C24: in a session that accepts messages, the bare text `PLAY` (4
characters, terminator at position 4) has position 5 read by
`strlen(message+5)`, and the bare text `KEY` (3 characters, terminator at
position 3) has position 4 read by `message[4]`: both reads are beyond the
terminator of the message. -/
theorem bare_PLAY_and_KEY_read_past_terminator :
    ¬ (lateGame.numPlayers > MaxPlayers)
    ∧ String.length "PLAY" = 4
    ∧ readPositions lateGame "PLAY" = [0, 1, 2, 3, 5]
    ∧ String.length "KEY" = 3
    ∧ readPositions lateGame "KEY" = [0, 0, 1, 2, 4] := by
  refine ⟨by decide, by decide, by decide, by decide, by decide⟩

/-! ## The count passed to `findGoldBag` -/

/-- Both lookups pass `GoldMaxNumPiles`: when fewer bags were allocated, a
lookup held to the array has no bag to return. -/
theorem pickUp_beyond_allocated (g : GameInfo) (clientAddr : Addr)
    (h : g.goldBags.length < GoldMaxNumPiles) :
    pickUp boundedCollab g clientAddr = .fail .nullDeref := by
  have hn : ¬ (GoldMaxNumPiles ≤ g.goldBags.length) := by omega
  simp [pickUp, boundedCollab, boundedFindGoldBag, hn, deref]

/-- Claim C25: in the gallery set up by `goldInit` with 10 bags drawn (the
array `goldBags` has 10 bags), the dispatcher, for the step `KEY l` onto the
last bag, and the slide loop, for `KEY L`, pass `GoldMaxNumPiles`, 30, to
`findGoldBag`: a lookup held to the 10 allocated bags fails, while the same
lookup told `GoldNumPiles` finds the bag. -/
theorem findGoldBag_told_GoldMaxNumPiles :
    goldInit (fun lo _ => lo) (fun _ _ _ => (mineStart.map, mineStart.goldBags)) mineStart
      = mineStart
    ∧ lateGame.GoldNumPiles = 10
    ∧ lateGame.goldBags.length = 10
    ∧ GoldMaxNumPiles = 30
    ∧ handleMessage boundedCollab 4 lateGame 1 "KEY l" = .fail .nullDeref
    ∧ handleMessage boundedCollab 4 lateGame 1 "KEY L" = .fail .nullDeref
    ∧ boundedFindGoldBag lateGame.GoldNumPiles 10 0 lateGame.goldBags = some lastBag := by
  refine ⟨by decide, by decide, by decide, by decide, by decide, by decide, by decide⟩

/-! ## Further claims on concrete sessions -/

/-- Claim C14: in `lateGame` 7 nuggets remain and no player has address 9.
The message `KEY x`, an invalid key, of client 9 does not return `false`:
`newMove` dereferences the absent player and the run faults, so the session
ends on this message (the message after it is never handled) while gold
remains. The same message of the admitted client 1 is answered and returns
`false`. -/
theorem invalid_key_of_stranger_ends_session :
    lateGame.totalGold = 7
    ∧ refCollab.findPlayer lateGame 9 = none
    ∧ keyVector 'x' = none ∧ isSlideKey 'x' = false
    ∧ handleMessage refCollab 4 lateGame 9 "KEY x" = .fail .nullDeref
    ∧ runMessages refCollab 4 lateGame [(9, "KEY x"), (1, "KEY h")] = .fail .nullDeref
    ∧ handleMessage refCollab 4 lateGame 1 "KEY x"
        = .ok (lateGame, [(1, "NO Invalid key")], false) := by
  refine ⟨by decide, by decide, by decide, by decide, by decide, by decide, by decide⟩

/-- Messages that only start with `KEY` or `PLAY` are dispatched as KEY and
PLAY messages: in `lateGame` the text `KEYS` of client 1 is answered like an
invalid key, and the text `PLAYER` of client 5 admits a player named `R`. -/
theorem keyword_prefixes_are_dispatched :
    isKey "KEYS" = true ∧ isPlay "PLAYER" = true
    ∧ handleMessage refCollab 4 lateGame 1 "KEYS"
        = .ok (lateGame, [(1, "NO Invalid key")], false)
    ∧ sentTo ((handleMessage refCollab 4 lateGame 5 "PLAYER").sent.getD []) 5
        = ["OK B", "GRID 1 13", "DISPLAY\n..........*.\n", "GOLD 0 0 7"]
    ∧ ((handleMessage refCollab 4 lateGame 5 "PLAYER").state.getD lateGame).players.map
          (fun p => (p.L, p.realname))
        = [('A', "bob"), ('B', "R")] := by
  refine ⟨by decide, by decide, by decide, by decide, by decide⟩

/-- Claim C16: for the roster of `tenJoined`, ten connected players with
distinct addresses, each named `p` with purse 0, `sendSummary` produces no
text: the line of rank 10 is written past the end of `temp`, the run faults
and no summary is sent. -/
theorem summary_of_ten_players_faults :
    tenJoined.numPlayers = tenJoined.players.length
    ∧ tenJoined.players.length = 10
    ∧ (rosterAddrs tenJoined).Nodup
    ∧ (∀ p ∈ tenJoined.players, p.connected = true)
    ∧ sendSummary tenJoined tenJoined.numPlayers = .fail .bufferOverflow := by
  refine ⟨by decide, by decide, by decide, by decide, by decide⟩

/-- Claim C17: the map of `lateGame` has 1 row and 12 columns. The PLAY
request of client 5 is admitted, as player `B`, and the messages addressed
to client 5 are, in this order, `OK B`, `GRID 1 13`, the DISPLAY and
`GOLD 0 0 7`: the order is the one of the claim, but the GRID message
carries the column count plus one, `GRID 1 13` and not `GRID 1 12`. -/
theorem admitted_player_told_columns_plus_one :
    lateGame.map.nR = 1 ∧ lateGame.map.nC = 12
    ∧ ((refCollab.playerConnect { lateGame with numPlayers := lateGame.numPlayers + 1 }
          ("PLAY amy".drop 5) 5).2.map (fun p => (p.L, p.realname))) = some ('B', "amy")
    ∧ (handleMessage refCollab 4 lateGame 5 "PLAY amy").stop = .ok false
    ∧ sentTo ((handleMessage refCollab 4 lateGame 5 "PLAY amy").sent.getD []) 5
        = ["OK B", "GRID 1 13", "DISPLAY\n..........*.\n", "GOLD 0 0 7"]
    ∧ "GRID 1 13" ≠ "GRID 1 12" := by
  refine ⟨by decide, by decide, by decide, by decide, by decide, by decide⟩

end Nugget
